import Mathlib

/-!
# SCONE reflex / neural controller: embedding and verified properties

Shallow embedding of the controller code of SCONE
(`Reflex.cpp`, `Neuron.cpp`, `NeuralController.h`, `ConditionalMuscleReflex.cpp`)
together with theorems about it.  Real numbers (`double`, `Real`, `activation_t`)
are modelled by rationals; `NaN`, infinities and negative zero are not represented.
-/

namespace scone

/-! ## Property nodes -/

/-- Modelled from the spec: `PropNode` (scone/core/PropNode.h) is not part of these
files.  A configuration declaration is its ordered list of key/value entries; only the
string-valued lookups used by the controller code are represented. -/
structure PropNode where
  entries : List (String × String)

/-- Modelled from the spec: the first value that a declaration stores under `key`, if
any. -/
def PropNode.find (pn : PropNode) (key : String) : Option String :=
  (pn.entries.find? (fun e => e.1 == key)).map (fun e => e.2)

/-- Modelled from the spec: the membership test `pn.has_key( key )`. -/
def PropNode.has_key (pn : PropNode) (key : String) : Bool :=
  (pn.find key).isSome

/-- Modelled from the spec: the required lookup `pn.get< String >( key )`, which fails
when the key is absent. -/
def PropNode.get (pn : PropNode) (key : String) : Except String String :=
  match pn.find key with
  | some v => Except.ok v
  | none => Except.error ("Could not find key: " ++ key)

/-- Modelled from the spec: the lookup with default `pn.get< String >( key, default )`. -/
def PropNode.getD (pn : PropNode) (key : String) (dflt : String) : String :=
  match pn.find key with
  | some v => v
  | none => dflt

/-! ## Reflex.cpp -/

namespace Reflex

/-- Source `Reflex::GetReflexName` (Reflex.cpp:30-33). -/
def GetReflexName (target source : String) : String :=
  if target == source then target else target ++ "-" ++ source

/-- Source `Reflex::GetParName` (Reflex.cpp:35-40). -/
def GetParName (props : PropNode) : Except String String := do
  let trg_name ← props.get "target"
  let src_name := props.getD "source" trg_name
  pure (if trg_name == src_name then trg_name else trg_name ++ "-" ++ src_name)

end Reflex

/-! ## Neuron graph (Neuron.cpp, NeuralController.h) -/

/-- Body side of a node (`Side`). -/
inductive Side where
  | LeftSide
  | NoSide
  | RightSide
  deriving DecidableEq

/-- Handle of a muscle of the model (`Muscle*`); the null pointer is `Option.none`. -/
abbrev Muscle := Nat

/-- Handle of a degree of freedom (`Dof*`). -/
abbrev Dof := Nat

/-- Stable handle of a node: the sensor layer `"0"` by position, a named layer by
layer name and position, or a motor node by position (`Neuron*`). -/
inductive NeuronRef where
  | sensor (idx : Nat)
  | inter (layer : String) (idx : Nat)
  | motor (idx : Nat)
  deriving DecidableEq

/-- Input edge `Neuron::Input`: source node, gain, offset passed to the source, and
the running absolute contribution kept for reporting. -/
structure Input where
  neuron : NeuronRef
  gain : ℚ
  offset : ℚ
  contribution : ℚ

/-- Data members of `Neuron` that the code in Neuron.cpp reads or writes. -/
structure Neuron where
  name_ : String
  index_ : Nat
  side_ : Side
  muscle_ : Option Muscle
  offset_ : ℚ
  activation_function : ℚ → ℚ
  inputs_ : List Input
  input_ : ℚ
  output_ : ℚ

/-- Data members of `SensorNeuron` (a `Neuron` with a sensor type tag and the name of
the sensed source). -/
structure SensorNeuron extends Neuron where
  type_ : String
  source_name_ : String

/-- Modelled from the spec: the accessor `Neuron::GetSide` (declared in Neuron.h, not
part of these files) returns the side that is part of the node identity. -/
def Neuron.GetSide (n : Neuron) : Side := n.side_

/-- Dynamic type of a node object: a sensor node, whose `GetOutput` is its own
override, or a node evaluated by `Neuron::GetOutput`. -/
inductive Node where
  | sensor (s : SensorNeuron)
  | neuron (n : Neuron)

/-- The node objects reachable through handles; an unused handle maps to `none`. -/
abbrev Store := NeuronRef → Option Node

/-- Outputs of the sensor layer during one step: the value that the `GetOutput`
override of the sensor node behind a handle returns for a given offset argument. -/
abbrev SensorOutputs := NeuronRef → ℚ → ℚ

/-- Statement `i.contribution += c` on the `k`-th edge of an input list. -/
def bumpContribution : List Input → Nat → ℚ → List Input
  | [], _, _ => []
  | i :: rest, 0, c => { i with contribution := i.contribution + c } :: rest
  | i :: rest, k + 1, c => i :: bumpContribution rest k c

/-- Effect of `i.contribution += abs( input )` on the store, for edge `k` of node `self`. -/
def addContribution (g : Store) (self : NeuronRef) (k : Nat) (c : ℚ) : Store :=
  match g self with
  | some (Node.neuron n) =>
      Function.update g self (some (Node.neuron { n with inputs_ := bumpContribution n.inputs_ k c }))
  | _ => g

/-- Effect of `input_ = value; output_ = activation_function( value )` on the store. -/
def storeOutput (g : Store) (self : NeuronRef) (value out : ℚ) : Store :=
  match g self with
  | some (Node.neuron n) =>
      Function.update g self (some (Node.neuron { n with input_ := value, output_ := out }))
  | _ => g

/-- The loop `for ( auto& i : inputs_ )` of `Neuron::GetOutput` (Neuron.cpp:44-49),
started at edge number `k` with the accumulated `value`; `call` is the virtual call
`i.neuron->GetOutput( i.offset )`. -/
def sumInputs (call : Store → NeuronRef → ℚ → Option (ℚ × Store)) (self : NeuronRef) :
    List Input → Nat → ℚ → Store → Option (ℚ × Store)
  | [], _, value, g => some (value, g)
  | i :: rest, k, value, g =>
      match call g i.neuron i.offset with
      | none => none
      | some (out, g1) =>
          let input := i.gain * out
          sumInputs call self rest (k + 1) (value + input) (addContribution g1 self k |input|)

/-- Source `Neuron::GetOutput` (Neuron.cpp:41-52) with virtual dispatch: a call on a
sensor node returns the sensor output, a call on any other node runs the loop over its
input edges.  The first argument bounds the depth of nested calls; `none` means that
the bound was reached (or that a handle does not resolve). -/
def GetOutput (sensors : SensorOutputs) : Nat → Store → NeuronRef → ℚ → Option (ℚ × Store)
  | 0, _, _, _ => none
  | fuel + 1, g, self, offset =>
      match g self with
      | none => none
      | some (Node.sensor _) => some (sensors self offset, g)
      | some (Node.neuron n) =>
          match sumInputs (GetOutput sensors fuel) self n.inputs_ 0 (n.offset_ + offset) g with
          | none => none
          | some (value, g1) =>
              let out := n.activation_function value
              some (out, storeOutput g1 self value out)

/-- Value returned by a call, when it returns. -/
def returned (r : Option (ℚ × Store)) : Option ℚ := r.map Prod.fst

/-- Copy of an edge with the contribution accumulator cleared. -/
def Input.wiring (i : Input) : Input := { i with contribution := 0 }

/-- Copy of a node with the contribution accumulators and the cached input and output
cleared: everything that stays fixed during evaluation. -/
def Neuron.wiring (n : Neuron) : Neuron :=
  { n with inputs_ := n.inputs_.map Input.wiring, input_ := 0, output_ := 0 }

/-- Wiring of a node object of either dynamic type. -/
def Node.wiring : Node → Node
  | Node.sensor s => Node.sensor { s with toNeuron := s.toNeuron.wiring }
  | Node.neuron n => Node.neuron n.wiring

/-- Two stores are identical except for contribution accumulators and cached
input/output fields. -/
def SameWiring (g h : Store) : Prop := ∀ r, (g r).map Node.wiring = (h r).map Node.wiring

/-- The graph has no cycle and no dangling handle: every input edge leads to an
existing node of strictly smaller rank. -/
def Ranked (g : Store) (rank : NeuronRef → Nat) : Prop :=
  ∀ r n, g r = some (Node.neuron n) → ∀ i ∈ n.inputs_, (g i.neuron).isSome ∧ rank i.neuron < rank r

/-- Two call results agree: both fail to return, or both return the same value and
leave stores with the same wiring. -/
def Agree (a b : Option (ℚ × Store)) : Prop :=
  match a, b with
  | none, none => True
  | some (v, g), some (w, h) => v = w ∧ SameWiring g h
  | _, _ => False

/-- Sum that `Neuron::GetOutput` accumulates over an input list when the sources are
evaluated by `call` in store `g`. -/
def inputSum (call : Store → NeuronRef → ℚ → Option (ℚ × Store)) (g : Store)
    (l : List Input) : ℚ :=
  (l.map (fun i => i.gain * ((returned (call g i.neuron i.offset)).getD 0))).sum

/-! ## Connection resolution (Neuron.cpp) -/

/-- Connection kinds `Neuron::connection_t`; `invalid` stands for an enum value outside
the declared ones, which reaches the `default:` label of a `switch`. -/
inductive connection_t where
  | none
  | bilateral
  | monosynaptic
  | antagonistic
  | agonistic
  | synergetic
  | ipsilateral
  | contralateral
  | source
  | invalid (raw : Nat)
  deriving DecidableEq

/-- Entries of `connection_dict` (Neuron.cpp:19-30), in source order. -/
def connection_dict : List (connection_t × String) :=
  [ (connection_t.none, "none"),
    (connection_t.bilateral, "bilateral"),
    (connection_t.monosynaptic, "monosynaptic"),
    (connection_t.antagonistic, "antagonistic"),
    (connection_t.agonistic, "agonistic"),
    (connection_t.synergetic, "synergetic"),
    (connection_t.ipsilateral, "ipsilateral"),
    (connection_t.contralateral, "contralateral"),
    (connection_t.source, "source"),
    (connection_t.agonistic, "protagonistic") ]

/-- Modelled from the spec: `xo::dictionary` is not part of these files.  Parsing
`connection_dict( str )` yields the kind of the first entry with that name; an unknown
kind fails (ConfigurationError). -/
def connection_dict_parse (str : String) : Except String connection_t :=
  match connection_dict.find? (fun e => e.2 == str) with
  | some e => Except.ok e.1
  | none => Except.error ("Unknown connection kind: " ++ str)

/-- Modelled from the spec: `xo::dictionary` is not part of these files.  Printing
`connection_dict( connect )` yields the name of the first entry with that kind, and
the empty string for a value without an entry. -/
def connection_dict_name (connect : connection_t) : String :=
  match connection_dict.find? (fun e => e.1 == connect) with
  | some e => e.2
  | none => ""

/-- Contribution `NeuralController::MuscleParam` (NeuralController.h:46-50). -/
structure MuscleParam where
  name : String
  correlation : ℚ
  dofs : List Dof

/-- Parameter binding `Params`: the lookup `par.try_get( name, pn, key, default )`,
whose definition (spot/par_tools.h) is not part of these files. -/
structure Params where
  try_get : String → PropNode → String → ℚ → ℚ

/-- Collaborators that Neuron.cpp calls and that are declared outside these files: the
anatomical queries of `Muscle`, the string helpers, and the name accessors of nodes. -/
structure Externals where
  IsAntagonist : Muscle → Muscle → Bool
  IsAgonist : Muscle → Muscle → Bool
  HasSharedDofs : Muscle → Muscle → Bool
  GetNameNoSide : String → String
  pattern_match : String → String → Bool
  from_str_int : String → Int
  GetMuscleParams : Option Muscle → Bool → List MuscleParam
  GetParName : Neuron → String
  GetName : Neuron → Bool → String
  SensorGetParName : SensorNeuron → String

/-- Controller members used by connection resolution: the sensor layer and the named
layers `m_InterNeurons` (a `flat_map` from layer name to nodes). -/
structure NeuralController where
  m_SensorNeurons : List SensorNeuron
  m_InterNeurons : List (String × List Neuron)

/-- Modelled from the spec: `xo::flat_map` is not part of these files.  The lookup
`m_InterNeurons[ layer ]` of a const controller yields the layer stored under that
name; an unresolvable layer reference fails at construction. -/
def NeuralController.InterLayer (nc : NeuralController) (layer : String) :
    Except String (List Neuron) :=
  match nc.m_InterNeurons.find? (fun e => e.1 == layer) with
  | some e => Except.ok e.2
  | none => Except.error ("Could not find key: " ++ layer)

/-- Source `NeuralController::GetLayerSize` (NeuralController.h:30). -/
def NeuralController.GetLayerSize (nc : NeuralController) (layer : String) : Except String Nat :=
  if layer == "0" then Except.ok nc.m_SensorNeurons.length
  else (nc.InterLayer layer).map List.length

/-- Source `NeuralController::FixLayerName` (NeuralController.h:43). -/
def NeuralController.FixLayerName (ext : Externals) (str : String) : String :=
  if ext.from_str_int str > 0 then "N" ++ str else str

/-- Modelled from the spec: `Neuron::AddInput` is declared in Neuron.h, not part of
these files.  It appends the edge (source, gain, offset) with a cleared contribution
accumulator to the ordered input list. -/
def Neuron.AddInput (self : Neuron) (input : NeuronRef) (gain offset : ℚ) : Neuron :=
  { self with inputs_ := self.inputs_ ++ [{ neuron := input, gain := gain, offset := offset, contribution := 0 }] }

/-- Source `Neuron::CheckRelation` (Neuron.cpp:93-108). -/
def CheckRelation (ext : Externals) (self : Neuron) (connect : connection_t)
    (sensor : SensorNeuron) (pn : PropNode) : Except String Bool :=
  match connect with
  | connection_t.bilateral => Except.ok true
  | connection_t.monosynaptic =>
      Except.ok (self.muscle_.isSome && sensor.source_name_ == self.name_)
  | connection_t.antagonistic =>
      match self.muscle_, sensor.muscle_ with
      | some m, some s => Except.ok (ext.IsAntagonist m s)
      | _, _ => Except.ok false
  | connection_t.agonistic =>
      match self.muscle_, sensor.muscle_ with
      | some m, some s => Except.ok (ext.IsAgonist m s)
      | _, _ => Except.ok false
  | connection_t.synergetic =>
      match self.muscle_, sensor.muscle_ with
      | some m, some s => Except.ok (ext.HasSharedDofs m s)
      | _, _ => Except.ok false
  | connection_t.ipsilateral =>
      Except.ok (sensor.GetSide == self.GetSide || sensor.GetSide == Side.NoSide)
  | connection_t.contralateral =>
      Except.ok (sensor.GetSide != self.GetSide || sensor.GetSide == Side.NoSide)
  | connection_t.source =>
      match pn.get "source" with
      | Except.ok name => Except.ok (ext.GetNameNoSide sensor.source_name_ == name)
      | Except.error e => Except.error e
  | connection_t.none => Except.ok false
  | connection_t.invalid raw =>
      Except.error ("Invalid connection type: " ++ connection_dict_name (connection_t.invalid raw))

/-- Parameter name built for a pair of contributions and a sensor type tag
(Neuron.cpp:145). -/
def muscleParName (mp sp : MuscleParam) (type_ : String) : String :=
  (if mp.name == sp.name then mp.name else mp.name ++ "." ++ sp.name) ++ "." ++ type_

/-- Nested loops over `mpvec` and `spvec` for a muscle sensor (Neuron.cpp:141-150):
the accumulated `(gain, offset)`. -/
def muscleSensorGain (par : Params) (pn : PropNode) (mpvec spvec : List MuscleParam)
    (type_ : String) : ℚ × ℚ :=
  mpvec.foldl (fun acc mp =>
    spvec.foldl (fun acc sp =>
      let parname := muscleParName mp sp type_
      let factor := mp.correlation * sp.correlation
      (acc.1 + factor * par.try_get parname pn "gain" 0,
       acc.2 + factor * par.try_get (parname ++ "0") pn "offset" 0)) acc) (0, 0)

/-- Loop over `mpvec` for a sensor that is no muscle (Neuron.cpp:155-159): the
accumulated `(gain, offset)`. -/
def plainSensorGain (ext : Externals) (par : Params) (pn : PropNode)
    (mpvec : List MuscleParam) (sensor : SensorNeuron) : ℚ × ℚ :=
  mpvec.foldl (fun acc mp =>
    (acc.1 + mp.correlation * par.try_get (mp.name ++ "." ++ ext.SensorGetParName sensor) pn "gain" 1,
     acc.2 + mp.correlation *
       par.try_get (mp.name ++ "." ++ ext.SensorGetParName sensor ++ "0") pn "offset" 0)) (0, 0)

/-- Body of the sensor-layer loop of `Neuron::AddInputs` (Neuron.cpp:130-164) for the
sensor at position `idx`.  The call `AddInput( sensor, gain )` at line 162 passes no
offset, which leaves the offset of the new edge at its default, zero. -/
def AddInputs_sensor (ext : Externals) (par : Params) (pn : PropNode) (connect : connection_t)
    (input_type : String) (mpvec : List MuscleParam) (self : Neuron) (idx : Nat)
    (sensor : SensorNeuron) : Except String Neuron :=
  if ext.pattern_match sensor.type_ input_type then
    match CheckRelation ext self connect sensor pn with
    | Except.error e => Except.error e
    | Except.ok false => Except.ok self
    | Except.ok true =>
        let acc :=
          match sensor.muscle_ with
          | some _ => muscleSensorGain par pn mpvec (ext.GetMuscleParams sensor.muscle_ true) sensor.type_
          | none => plainSensorGain ext par pn mpvec sensor
        Except.ok (self.AddInput (NeuronRef.sensor idx) acc.1 0)
  else Except.ok self

/-- Sensor-layer loop `for ( Index idx = 0; idx < input_layer_size; ++idx )`
(Neuron.cpp:128-165), continued from position `idx`. -/
def AddInputs_sensorLoop (ext : Externals) (par : Params) (pn : PropNode)
    (connect : connection_t) (input_type : String) (mpvec : List MuscleParam) :
    List SensorNeuron → Nat → Neuron → Except String Neuron
  | [], _, self => Except.ok self
  | sensor :: rest, idx, self =>
      match AddInputs_sensor ext par pn connect input_type mpvec self idx sensor with
      | Except.error e => Except.error e
      | Except.ok self1 =>
          AddInputs_sensorLoop ext par pn connect input_type mpvec rest (idx + 1) self1

/-- Body of the loop over a named layer (Neuron.cpp:173-192) for the node `input` at
position `idx` of layer `layer`. -/
def AddInputs_inter (ext : Externals) (par : Params) (pn : PropNode) (connect : connection_t)
    (layer : String) (right_side : Bool) (self : Neuron) (idx : Nat) (input : Neuron) :
    Except String Neuron :=
  match connect with
  | connection_t.monosynaptic =>
      if input.index_ == self.index_ then
        Except.ok (self.AddInput (NeuronRef.inter layer idx)
          (par.try_get (ext.GetParName input) pn "gain" 1) 0)
      else Except.ok self
  | connection_t.bilateral =>
      Except.ok (self.AddInput (NeuronRef.inter layer idx)
        (par.try_get (ext.GetName input right_side) pn "gain" 1) 0)
  | connection_t.ipsilateral =>
      if input.GetSide == self.GetSide || input.GetSide == Side.NoSide then
        Except.ok (self.AddInput (NeuronRef.inter layer idx)
          (par.try_get (ext.GetParName input) pn "gain" 1) 0)
      else Except.ok self
  | connection_t.contralateral =>
      if input.GetSide != self.GetSide || input.GetSide == Side.NoSide then
        Except.ok (self.AddInput (NeuronRef.inter layer idx)
          (par.try_get (ext.GetParName input) pn "gain" 1) 0)
      else Except.ok self
  | other => Except.error ("Invalid connection type: " ++ connection_dict_name other)

/-- Loop over a named layer (Neuron.cpp:171-193), continued from position `idx`. -/
def AddInputs_interLoop (ext : Externals) (par : Params) (pn : PropNode)
    (connect : connection_t) (layer : String) (right_side : Bool) :
    List Neuron → Nat → Neuron → Except String Neuron
  | [], _, self => Except.ok self
  | input :: rest, idx, self =>
      match AddInputs_inter ext par pn connect layer right_side self idx input with
      | Except.error e => Except.error e
      | Except.ok self1 =>
          AddInputs_interLoop ext par pn connect layer right_side rest (idx + 1) self1

/-- Source `Neuron::AddInputs` (Neuron.cpp:110-201): the node after the input edges of
one connection declaration `pn` have been added, or the construction error. -/
def AddInputs (ext : Externals) (self : Neuron) (pn : PropNode) (par : Params)
    (nc : NeuralController) : Except String Neuron :=
  let mpvec := ext.GetMuscleParams self.muscle_ false
  match connection_dict_parse
      (pn.getD "connect" (if pn.has_key "source" then "source" else "none")) with
  | Except.error e => Except.error e
  | Except.ok connect =>
      let input_type := pn.getD "type" "*"
      let input_layer := NeuralController.FixLayerName ext
        (pn.getD "input_layer" (if connect == connection_t.none then "" else "0"))
      let right_side := self.GetSide == Side.RightSide
      if input_layer == "0" then
        match nc.GetLayerSize input_layer with
        | Except.error e => Except.error e
        | Except.ok input_layer_size =>
            AddInputs_sensorLoop ext par pn connect input_type mpvec
              (nc.m_SensorNeurons.take input_layer_size) 0 self
      else if !input_layer.isEmpty then
        match nc.GetLayerSize input_layer, nc.InterLayer input_layer with
        | Except.ok input_layer_size, Except.ok nodes =>
            AddInputs_interLoop ext par pn connect input_layer right_side
              (nodes.take input_layer_size) 0 self
        | Except.error e, _ => Except.error e
        | _, Except.error e => Except.error e
      else if pn.has_key "offset" then
        Except.ok { self with offset_ := mpvec.foldl (fun acc mp =>
          acc + mp.correlation * par.try_get (mp.name ++ ".C0") pn "offset" 0) self.offset_ }
      else Except.ok self

/-! ## Conditional reflex (ConditionalMuscleReflex.cpp) -/

/-- Admissible range `Range< Degree >` with its two bounds. -/
structure Range where
  min : ℚ
  max : ℚ

/-- Modelled from the spec: `Range` is declared outside these files.  `Test` tells
whether a value is inside the range, bounds included. -/
def Range.Test (r : Range) (value : ℚ) : Bool :=
  decide (r.min ≤ value) && decide (value ≤ r.max)

/-- Modelled from the spec: `Range` is declared outside these files.  The signed
violation magnitude: negative below the range, positive above it (8 degrees against
the range from -5 to 5 gives +3), zero inside. -/
def Range.GetRangeViolation (r : Range) (value : ℚ) : ℚ :=
  if value < r.min then value - r.min
  else if value > r.max then value - r.max
  else 0

/-- Library function `std::signbit` on the values represented here: set exactly on the
negative rationals.  A `double` of negative zero, whose sign bit is set although it is
not below zero, has no rational counterpart; `ComputeControls_conditionOfSignbit` below
takes the sign bit of the velocity itself and so covers that value too. -/
def signbit (x : ℚ) : Bool := decide (x < 0)

/-- The local variable `condition` of `ConditionalMuscleReflex::ComputeControls` at
line 47, for the delayed position `dofpos` (in degrees, line 34) and the delayed
velocity `dofvel` (line 39). -/
def ComputeControls_condition (m_ConditionalPosRange : Range) (dofpos dofvel : ℚ) : Bool :=
  if !m_ConditionalPosRange.Test dofpos then
    let violation := m_ConditionalPosRange.GetRangeViolation dofpos
    if signbit violation == signbit dofvel then false else true
  else true

/-- The same local variable `condition` (ConditionalMuscleReflex.cpp:33-45) as a
function of `dofvel_signbit`, the value of `std::signbit( dofvel )` at line 40, which is
all that the method reads of the delayed velocity.  A velocity of negative zero is the
case `dofvel_signbit = true`. -/
def ComputeControls_conditionOfSignbit (m_ConditionalPosRange : Range) (dofpos : ℚ)
    (dofvel_signbit : Bool) : Bool :=
  if !m_ConditionalPosRange.Test dofpos then
    let violation := m_ConditionalPosRange.GetRangeViolation dofpos
    if signbit violation == dofvel_signbit then false else true
  else true

/-- Source `ConditionalMuscleReflex::ComputeControls` (ConditionalMuscleReflex.cpp:30-49)
as a transformer of the simulation state `σ` that holds the actuator inputs;
`MuscleReflex_ComputeControls` is the base-class method. -/
def ConditionalMuscleReflex.ComputeControls {σ : Type}
    (MuscleReflex_ComputeControls : ℚ → σ → σ) (m_ConditionalPosRange : Range)
    (dofpos dofvel : ℚ) (timestamp : ℚ) (s : σ) : σ :=
  if ComputeControls_condition m_ConditionalPosRange dofpos dofvel then
    MuscleReflex_ComputeControls timestamp s
  else s

/-! ## Characterisation of admitted edges -/

/-- Edges that the monosynaptic rule adds for a named layer: one per candidate whose
index equals `index`, in layer order, positions counted from `idx`. -/
def monosynapticEdges (ext : Externals) (par : Params) (pn : PropNode) (layer : String)
    (index : Nat) (nodes : List Neuron) (idx : Nat) : List Input :=
  ((nodes.enumFrom idx).filter (fun p => p.2.index_ == index)).map
    (fun p => { neuron := NeuronRef.inter layer p.1,
                gain := par.try_get (ext.GetParName p.2) pn "gain" 1,
                offset := 0, contribution := 0 })

/-! ## Example objects -/

/-- Rectifier activation used in the examples. -/
def exampleRectifier (x : ℚ) : ℚ := if x < 0 then 0 else x

/-- Example sensor node for the force of the right soleus. -/
def exampleSensor : SensorNeuron :=
  { name_ := "soleus_r.F", index_ := 0, side_ := Side.RightSide, muscle_ := some 0,
    offset_ := 0, activation_function := fun x => x, inputs_ := [], input_ := 0, output_ := 0,
    type_ := "F", source_name_ := "soleus_r" }

/-- Example motor node with one input edge from sensor 0, whose contribution
accumulator and cached output hold `c`. -/
def exampleMotor (c : ℚ) : Neuron :=
  { name_ := "soleus_r", index_ := 0, side_ := Side.RightSide, muscle_ := some 0,
    offset_ := 1 / 2, activation_function := exampleRectifier,
    inputs_ := [{ neuron := NeuronRef.sensor 0, gain := 3, offset := 1, contribution := c }],
    input_ := c, output_ := c }

/-- Example store: sensor 0 and motor 0. -/
def exampleStore (c : ℚ) : Store := fun r =>
  if r = NeuronRef.motor 0 then some (Node.neuron (exampleMotor c))
  else if r = NeuronRef.sensor 0 then some (Node.sensor exampleSensor)
  else none

/-- Example sensor-layer outputs. -/
def exampleSensors : SensorOutputs := fun _ offset => 2 + offset

/-- Rank of the example store: sensors below motor nodes. -/
def exampleRank : NeuronRef → Nat
  | NeuronRef.motor _ => 1
  | _ => 0

/-- Example integer parser: decimal digits give their value, anything else gives 0. -/
def exampleFromStr (s : String) : Int :=
  if s.data.all Char.isDigit then
    Int.ofNat (s.data.foldl (fun a c => 10 * a + (c.toNat - 48)) 0)
  else 0

/-- Example collaborators: no anatomical relation holds, names are their own parameter
names, the pattern "*" matches every type tag, and each muscle has one contribution. -/
def exampleExternals : Externals :=
  { IsAntagonist := fun _ _ => false
    IsAgonist := fun _ _ => false
    HasSharedDofs := fun _ _ => false
    GetNameNoSide := fun s => s
    pattern_match := fun str pattern => pattern == "*" || str == pattern
    from_str_int := exampleFromStr
    GetMuscleParams := fun m _ =>
      match m with
      | some _ => [{ name := "soleus", correlation := 1, dofs := [] }]
      | none => []
    GetParName := fun n => n.name_
    GetName := fun n _ => n.name_
    SensorGetParName := fun s => s.name_ }

/-- Example parameter binding in which every lookup yields its default. -/
def exampleParams : Params := { try_get := fun _ _ _ dflt => dflt }

/-- Example sensor node with the given position, type tag and source name. -/
def exampleSensorAt (idx : Nat) (type_ source_name_ : String) : SensorNeuron :=
  { exampleSensor with
    name_ := source_name_ ++ "." ++ type_, index_ := idx, type_ := type_,
    source_name_ := source_name_ }

/-- Example node of a named layer with the given index and side. -/
def exampleInter (idx : Nat) (side : Side) : Neuron :=
  { name_ := "N1", index_ := idx, side_ := side, muscle_ := none, offset_ := 0,
    activation_function := exampleRectifier, inputs_ := [], input_ := 0, output_ := 0 }

/-- Example controller: three sensors (force of the gastrocnemius, force and length of
the soleus) and a named layer "N1" with a left and a right node of index 0 and 1. -/
def exampleController : NeuralController :=
  { m_SensorNeurons :=
      [exampleSensorAt 0 "F" "gastroc_r", exampleSensorAt 1 "F" "soleus_r",
       exampleSensorAt 2 "L" "soleus_r"]
    m_InterNeurons :=
      [("N1", [exampleInter 0 Side.LeftSide, exampleInter 1 Side.RightSide])] }

/-- Example target: the motor node of the right soleus, index 0, without input edges. -/
def exampleTarget : Neuron := { exampleMotor 0 with inputs_ := [] }

/-! ## Reflex output (Reflex.cpp) -/

/-- Modelled from the spec: `Actuator` is declared outside these files.  Only the input
accumulator of the actuator is represented. -/
structure Actuator where
  input : ℚ

/-- Modelled from the spec: `Actuator::AddInput` adds a value to the input accumulator
of the actuator. -/
def Actuator.AddInput (a : Actuator) (v : ℚ) : Actuator :=
  { a with input := a.input + v }

/-- Modelled from the spec: `flut::math::clamp` is a library function outside these
files.  Called as a statement on a variable, it clamps the variable in place to the
range from `min` to `max`; this is the value the variable holds afterwards. -/
def clamp (v min max : ℚ) : ℚ :=
  if v < min then min else if v > max then max else v

/-- Data members of `Reflex` used by `AddTargetControlValue`: the clamp range set by
the constructor (Reflex.cpp:12-13) and the target actuator. -/
structure ReflexMembers where
  min_control_value : ℚ
  max_control_value : ℚ
  m_Target : Actuator

/-- Source `Reflex::AddTargetControlValue` (Reflex.cpp:23-28): the returned value and
the reflex with its updated target actuator. -/
def Reflex.AddTargetControlValue (self : ReflexMembers) (u : ℚ) : ℚ × ReflexMembers :=
  let u1 := clamp u self.min_control_value self.max_control_value
  (u1, { self with m_Target := self.m_Target.AddInput u1 })

/-! ## Parameter lookups of the gain loops (Neuron.cpp) -/

/-- One call `par.try_get( name, pn, key, default )`. -/
structure Lookup where
  name : String
  key : String
  dflt : ℚ
  deriving DecidableEq

/-- Nested loops over `mpvec` and `spvec` for a muscle sensor (Neuron.cpp:141-150) with
the calls of `par.try_get` recorded in program order: the accumulated `(gain, offset)`
and the list of lookups. -/
def muscleSensorGainTraced (par : Params) (pn : PropNode) (mpvec spvec : List MuscleParam)
    (type_ : String) : (ℚ × ℚ) × List Lookup :=
  mpvec.foldl (fun acc mp =>
    spvec.foldl (fun acc sp =>
      let parname := muscleParName mp sp type_
      let factor := mp.correlation * sp.correlation
      ((acc.1.1 + factor * par.try_get parname pn "gain" 0,
        acc.1.2 + factor * par.try_get (parname ++ "0") pn "offset" 0),
       acc.2 ++ [{ name := parname, key := "gain", dflt := 0 },
                 { name := parname ++ "0", key := "offset", dflt := 0 }])) acc) ((0, 0), [])

/-- Gain lookups among recorded lookups. -/
def gainNames (l : List Lookup) : List String :=
  (l.filter (fun c => c.key == "gain")).map (fun c => c.name)

/-! ## Synergetic input (Neuron.cpp) -/

/-- Handle of a joint (`Joint*`). -/
abbrev Joint := Nat

/-- Anatomical accessors used by `AddSynergeticInput` and declared outside these files:
the joints of a muscle and the joint of a degree of freedom. -/
structure Anatomy where
  GetJoints : Muscle → List Joint
  GetJoint : Dof → Joint

/-- The counter `common_joints` after the loops of Neuron.cpp:60-63. -/
def common_joints (mjoints sjoints : List Joint) : Nat :=
  mjoints.foldl (fun c mj => sjoints.foldl (fun c sj => c + (if mj == sj then 1 else 0)) c) 0

/-- Negation of the test of Neuron.cpp:76-77: `std::find_first_of` finds a dof `a` of
`mp` and a dof `b` of `sp` with `a != b` that belong to the same joint. -/
def dofsClash (an : Anatomy) (mp sp : MuscleParam) : Bool :=
  mp.dofs.any (fun a => sp.dofs.any (fun b => a != b && an.GetJoint a == an.GetJoint b))

/-- Nested loops of `AddSynergeticInput` (Neuron.cpp:72-86): the accumulated
`(gain, offset)`. -/
def synergeticGain (an : Anatomy) (par : Params) (pn : PropNode)
    (mpvec spvec : List MuscleParam) (type_ : String) : ℚ × ℚ :=
  mpvec.foldl (fun acc mp =>
    spvec.foldl (fun acc sp =>
      if !dofsClash an mp sp then
        let parname := muscleParName mp sp type_
        let factor := mp.correlation * sp.correlation
        (acc.1 + factor * par.try_get parname pn "gain" 0,
         acc.2 + factor * par.try_get (parname ++ "0") pn "offset" 0)
      else acc) acc) (0, 0)

/-- Source `Neuron::AddSynergeticInput` (Neuron.cpp:54-91) for the sensor behind the
handle `sensorRef`.  Both muscle pointers are dereferenced, so a null pointer is an
error. -/
def AddSynergeticInput (ext : Externals) (an : Anatomy) (self : Neuron) (sensorRef : NeuronRef)
    (sensor : SensorNeuron) (pn : PropNode) (par : Params) : Except String Neuron :=
  match self.muscle_, sensor.muscle_ with
  | some m, some s =>
      if common_joints (an.GetJoints m) (an.GetJoints s) > 0 then
        let mpvec := ext.GetMuscleParams self.muscle_ false
        let spvec := ext.GetMuscleParams sensor.muscle_ true
        let acc := synergeticGain an par pn mpvec spvec sensor.type_
        Except.ok (self.AddInput sensorRef acc.1 acc.2)
      else Except.ok self
  | _, _ => Except.error "null muscle"

/-! ## Controller as a store -/

/-- The node behind a handle in a controller (`NeuralController::GetNeuron`,
NeuralController.h:31); motor nodes are not kept in the modelled members. -/
def NeuralController.store (nc : NeuralController) : Store := fun r =>
  match r with
  | NeuronRef.sensor idx => (nc.m_SensorNeurons.get? idx).map Node.sensor
  | NeuronRef.inter layer idx =>
      match nc.InterLayer layer with
      | Except.ok nodes => (nodes.get? idx).map Node.neuron
      | Except.error _ => none
  | NeuronRef.motor _ => none

/-! ## Pattern node (PatternNeuron.cpp) -/

/-- Library function `std::fmod` as the real remainder on an ordered field: `x` minus
`y` times the quotient `x / y` truncated toward zero. -/
def fmod {K : Type} [LinearOrderedField K] [FloorRing K] (x y : K) : K :=
  x - y * (if 0 ≤ x / y then (Int.floor (x / y) : K) else (Int.ceil (x / y) : K))

/-- Data members of `PatternNeuron` set by its constructor (PatternNeuron.cpp:14-16). -/
structure PatternNeuron (K : Type) where
  t0_ : K
  sigma_ : K
  period_ : K

/-- Source `PatternNeuron::GetOutput` (PatternNeuron.cpp:19-23) at simulation time
`time` (`model_.GetTime()`); `exp` is the library exponential.  The remainder by a zero
period and the quotient by a zero width have no value in real arithmetic (the
computation on doubles yields NaN); the result is then `none`. -/
def PatternNeuron.GetOutput {K : Type} [LinearOrderedField K] [FloorRing K] (exp : K → K)
    (self : PatternNeuron K) (time : K) : Option K :=
  if self.period_ = 0 ∨ self.sigma_ = 0 then none
  else
    let t := fmod (time - self.t0_ + self.period_) self.period_ - (1 / 2) * self.period_
    some (exp (-(t * t) / self.sigma_ * self.sigma_))

/-! ## Characterisation of admitted edges, continued -/

/-- Edges that the bilateral rule adds for a named layer: one per candidate, in layer
order, positions counted from `idx`. -/
def bilateralEdges (ext : Externals) (par : Params) (pn : PropNode) (layer : String)
    (right_side : Bool) (nodes : List Neuron) (idx : Nat) : List Input :=
  (nodes.enumFrom idx).map
    (fun p => { neuron := NeuronRef.inter layer p.1,
                gain := par.try_get (ext.GetName p.2 right_side) pn "gain" 1,
                offset := 0, contribution := 0 })

/-- Gain of the edge that the sensor loop computes for an admitted sensor
(Neuron.cpp:135-160). -/
def sensorEdgeGain (ext : Externals) (par : Params) (pn : PropNode) (mpvec : List MuscleParam)
    (sensor : SensorNeuron) : ℚ :=
  match sensor.muscle_ with
  | some _ =>
      (muscleSensorGain par pn mpvec (ext.GetMuscleParams sensor.muscle_ true) sensor.type_).1
  | none => (plainSensorGain ext par pn mpvec sensor).1

/-- Edges that the bilateral rule adds for the sensor layer: one per sensor whose type
tag matches the type pattern, in layer order, positions counted from `idx`. -/
def bilateralSensorEdges (ext : Externals) (par : Params) (pn : PropNode) (input_type : String)
    (mpvec : List MuscleParam) (sensors : List SensorNeuron) (idx : Nat) : List Input :=
  ((sensors.enumFrom idx).filter (fun p => ext.pattern_match p.2.type_ input_type)).map
    (fun p => { neuron := NeuronRef.sensor p.1,
                gain := sensorEdgeGain ext par pn mpvec p.2,
                offset := 0, contribution := 0 })

/-! ## Example objects, continued -/

/-- Example collaborators in which the contribution of every muscle acts on dof 0. -/
def exampleExternalsDofs : Externals :=
  { exampleExternals with
    GetMuscleParams := fun m _ =>
      match m with
      | some _ => [{ name := "soleus", correlation := 1, dofs := [0] }]
      | none => [] }

/-- Example parameter binding in which every gain is 2 and every offset is 3. -/
def exampleParamsBound : Params :=
  { try_get := fun _ _ key _ => if key == "gain" then 2 else 3 }

/-- Example anatomy: every muscle spans joint 0, and every dof belongs to joint 0. -/
def exampleAnatomy : Anatomy :=
  { GetJoints := fun _ => [0]
    GetJoint := fun _ => 0 }

/-- Example target on the left side: the motor node of the left soleus. -/
def exampleTargetLeft : Neuron :=
  { exampleTarget with name_ := "soleus_l", side_ := Side.LeftSide, muscle_ := some 1 }

/-- Example sensor on the left side: the force of the left soleus. -/
def exampleSensorLeft : SensorNeuron :=
  { exampleSensor with
    name_ := "soleus_l.F", side_ := Side.LeftSide, muscle_ := some 1,
    source_name_ := "soleus_l" }

/-- Example declaration of a monosynaptic connection from the sensor layer. -/
def exampleMonosynaptic : PropNode := { entries := [("connect", "monosynaptic")] }

/-- Example declaration of kind none that names the layer "1" as input layer. -/
def exampleNoneNamed : PropNode := { entries := [("connect", "none"), ("input_layer", "1")] }

/-- Example declaration of kind none that names the sensor layer as input layer. -/
def exampleNoneSensors : PropNode := { entries := [("connect", "none"), ("input_layer", "0")] }

/-- Example bilateral declaration on the sensor layer, restricted to the type tag "F". -/
def exampleBilateralForce : PropNode := { entries := [("connect", "bilateral"), ("type", "F")] }

/-- Example bilateral declaration whose input layer is the layer "1". -/
def exampleSelfLayer : PropNode := { entries := [("connect", "bilateral"), ("input_layer", "1")] }

/-- The node at position 0 of the example layer "N1" after the bilateral declaration on
its own layer has been resolved: it has an input edge from itself. -/
def exampleCoupled : Neuron :=
  ((exampleInter 0 Side.LeftSide).AddInput (NeuronRef.inter "N1" 0) 1 0).AddInput
    (NeuronRef.inter "N1" 1) 1 0

/-- The example controller with the resolved node in place at position 0 of "N1". -/
def exampleCoupledController : NeuralController :=
  { exampleController with
    m_InterNeurons := [("N1", [exampleCoupled, exampleInter 1 Side.RightSide])] }

/-- Example pattern node over the rationals: origin 0, width 1/2, period 1. -/
def examplePattern : PatternNeuron ℚ := { t0_ := 0, sigma_ := 1 / 2, period_ := 1 }

/-! ## Initial parameter values (ParamInfo.cpp) -/

/-- Data members of `ParamInfo` set by its constructors (ParamInfo.cpp:12-31). -/
structure ParamInfo where
  name : String
  init_mean : ℚ
  init_std : ℚ
  init_min : ℚ
  init_max : ℚ
  min : ℚ
  max : ℚ
  is_free : Bool

/-- Random number source `Rng` (Rng/GlobalRng.h, outside these files): a draw returns a
value and the next generator state `ρ`. -/
structure Rng (ρ : Type) where
  gauss : ℚ → ℚ → ρ → ℚ × ρ
  uni : ℚ → ℚ → ρ → ℚ × ρ

/-- Modelled from the spec: the helper `Square` is declared outside these files; it is
the square of its argument. -/
def Square (x : ℚ) : ℚ := x * x

/-- Modelled from the spec: the helper `GetRestrained` is declared outside these files;
it is the value restrained to the range from `min` to `max`. -/
def GetRestrained (value min max : ℚ) : ℚ :=
  if value < min then min else if value > max then max else value

/-- Source `ParamInfo::GetInitialValue` (ParamInfo.cpp:33-43): the returned value and the
generator state after the call. -/
def ParamInfo.GetInitialValue {ρ : Type} (rng : Rng ρ) (self : ParamInfo) (s : ρ) : ℚ × ρ :=
  if self.is_free then
    if self.init_mean != 0 || self.init_std != 0 then
      let draw := rng.gauss self.init_mean (Square self.init_std) s
      (GetRestrained draw.1 self.min self.max, draw.2)
    else rng.uni self.init_min self.init_max s
  else (self.init_mean, s)

/-! ## Synergetic input with recorded lookups -/

/-- Nested loops of `AddSynergeticInput` (Neuron.cpp:72-86) with the calls of
`par.try_get` recorded in program order. -/
def synergeticGainTraced (an : Anatomy) (par : Params) (pn : PropNode)
    (mpvec spvec : List MuscleParam) (type_ : String) : (ℚ × ℚ) × List Lookup :=
  mpvec.foldl (fun acc mp =>
    spvec.foldl (fun acc sp =>
      if !dofsClash an mp sp then
        let parname := muscleParName mp sp type_
        let factor := mp.correlation * sp.correlation
        ((acc.1.1 + factor * par.try_get parname pn "gain" 0,
          acc.1.2 + factor * par.try_get (parname ++ "0") pn "offset" 0),
         acc.2 ++ [{ name := parname, key := "gain", dflt := 0 },
                   { name := parname ++ "0", key := "offset", dflt := 0 }])
      else acc) acc) ((0, 0), [])

/-- Source `Neuron::AddSynergeticInput` (Neuron.cpp:54-91) with the calls of
`par.try_get` recorded in program order: the updated node and the list of lookups. -/
def AddSynergeticInputTraced (ext : Externals) (an : Anatomy) (self : Neuron)
    (sensorRef : NeuronRef) (sensor : SensorNeuron) (pn : PropNode) (par : Params) :
    Except String (Neuron × List Lookup) :=
  match self.muscle_, sensor.muscle_ with
  | some m, some s =>
      if common_joints (an.GetJoints m) (an.GetJoints s) > 0 then
        let mpvec := ext.GetMuscleParams self.muscle_ false
        let spvec := ext.GetMuscleParams sensor.muscle_ true
        let acc := synergeticGainTraced an par pn mpvec spvec sensor.type_
        Except.ok (self.AddInput sensorRef acc.1.1 acc.1.2, acc.2)
      else Except.ok (self, [])
  | _, _ => Except.error "null muscle"

/-! ## Declared connection kinds -/

/-- The nine declared connection kinds. -/
def declaredKinds : List connection_t :=
  [connection_t.none, connection_t.bilateral, connection_t.monosynaptic,
   connection_t.antagonistic, connection_t.agonistic, connection_t.synergetic,
   connection_t.ipsilateral, connection_t.contralateral, connection_t.source]

/-! ## Example objects, final part -/

/-- Example random source whose state counts the draws: a Gaussian draw yields the mean
plus 10, a uniform draw yields the lower bound. -/
def exampleRng : Rng Nat :=
  { gauss := fun mean _ n => (mean + 10, n + 1)
    uni := fun lo _ n => (lo, n + 1) }

/-- Example free parameter with mean 1, deviation 1/2 and the range from 0 to 5. -/
def exampleParamInfo : ParamInfo :=
  { name := "soleus.F", init_mean := 1, init_std := 1 / 2, init_min := 0, init_max := 2,
    min := 0, max := 5, is_free := true }

/-- Example declaration of a synergetic connection to the layer "1". -/
def exampleSynergeticNamed : PropNode :=
  { entries := [("connect", "synergetic"), ("input_layer", "1")] }

/-- Example declaration that only gives an offset. -/
def exampleOffsetOnly : PropNode := { entries := [("offset", "1")] }

/-! # Theorems -/

/-! ## Evaluation lemmas -/

theorem bumpContribution_wiring (l : List Input) (k : Nat) (c : ℚ) :
    (bumpContribution l k c).map Input.wiring = l.map Input.wiring := by
  induction l generalizing k with
  | nil => simp [bumpContribution]
  | cons i rest ih =>
    cases k with
    | zero => simp [bumpContribution, Input.wiring]
    | succ k => simp [bumpContribution, ih]

theorem SameWiring.refl (g : Store) : SameWiring g g := fun _ => rfl

theorem SameWiring.symm {g h : Store} (w : SameWiring g h) : SameWiring h g :=
  fun r => (w r).symm

theorem SameWiring.trans {g h k : Store} (w1 : SameWiring g h) (w2 : SameWiring h k) :
    SameWiring g k := fun r => (w1 r).trans (w2 r)

theorem sameWiring_addContribution (g : Store) (self : NeuronRef) (k : Nat) (c : ℚ) :
    SameWiring (addContribution g self k c) g := by
  intro r
  unfold addContribution
  cases hg : g self with
  | none => rfl
  | some nd =>
    cases nd with
    | sensor s => rfl
    | neuron n =>
      by_cases hr : r = self
      · subst hr
        simp [hg, Node.wiring, Neuron.wiring, bumpContribution_wiring]
      · simp [Function.update_noteq hr]

theorem sameWiring_storeOutput (g : Store) (self : NeuronRef) (v o : ℚ) :
    SameWiring (storeOutput g self v o) g := by
  intro r
  unfold storeOutput
  cases hg : g self with
  | none => rfl
  | some nd =>
    cases nd with
    | sensor s => rfl
    | neuron n =>
      by_cases hr : r = self
      · subst hr
        simp [hg, Node.wiring, Neuron.wiring]
      · simp [Function.update_noteq hr]

theorem sumInputs_agree (call : Store → NeuronRef → ℚ → Option (ℚ × Store)) (self : NeuronRef)
    (hcall : ∀ g h r x, SameWiring g h → Agree (call g r x) (call h r x)) :
    ∀ (l1 l2 : List Input), l1.map Input.wiring = l2.map Input.wiring →
      ∀ (k : Nat) (v : ℚ) (g h : Store), SameWiring g h →
        Agree (sumInputs call self l1 k v g) (sumInputs call self l2 k v h) := by
  intro l1
  induction l1 with
  | nil =>
    intro l2 hl k v g h w
    cases l2 with
    | nil => exact ⟨rfl, w⟩
    | cons j l2 => simp at hl
  | cons i l1 ih =>
    intro l2 hl k v g h w
    cases l2 with
    | nil => simp at hl
    | cons j l2 =>
      simp only [List.map_cons, List.cons.injEq] at hl
      obtain ⟨hij, hl⟩ := hl
      have hn : i.neuron = j.neuron := by
        have e := congrArg Input.neuron hij
        simpa [Input.wiring] using e
      have hgain : i.gain = j.gain := by
        have e := congrArg Input.gain hij
        simpa [Input.wiring] using e
      have hoff : i.offset = j.offset := by
        have e := congrArg Input.offset hij
        simpa [Input.wiring] using e
      have hc := hcall g h i.neuron i.offset w
      simp only [sumInputs]
      rw [← hn, ← hgain, ← hoff]
      cases h1 : call g i.neuron i.offset with
      | none =>
        cases h2 : call h i.neuron i.offset with
        | none => trivial
        | some q => rw [h1, h2] at hc; exact hc.elim
      | some p =>
        cases h2 : call h i.neuron i.offset with
        | none => rw [h1, h2] at hc; exact hc.elim
        | some q =>
          rw [h1, h2] at hc
          obtain ⟨v1, g1⟩ := p
          obtain ⟨v2, g2⟩ := q
          obtain ⟨hv, hw⟩ := hc
          subst hv
          exact ih l2 hl (k + 1) _ _ _
            (((sameWiring_addContribution g1 self k _).trans hw).trans
              (sameWiring_addContribution g2 self k _).symm)

theorem neuron_of_sameWiring {g h : Store} (w : SameWiring g h) {r : NeuronRef} {n : Neuron}
    (hg : g r = some (Node.neuron n)) :
    ∃ m, h r = some (Node.neuron m) ∧ n.wiring = m.wiring := by
  have hr := w r
  rw [hg] at hr
  cases hh : h r with
  | none => rw [hh] at hr; simp at hr
  | some nd =>
    rw [hh] at hr
    cases nd with
    | sensor s => simp [Node.wiring] at hr
    | neuron m =>
      refine ⟨m, rfl, ?_⟩
      simpa [Node.wiring] using hr

theorem GetOutput_agree (sensors : SensorOutputs) :
    ∀ (fuel : Nat) (g h : Store) (r : NeuronRef) (x : ℚ), SameWiring g h →
      Agree (GetOutput sensors fuel g r x) (GetOutput sensors fuel h r x) := by
  intro fuel
  induction fuel with
  | zero => intro g h r x _; trivial
  | succ fuel ih =>
    intro g h r x w
    have hr := w r
    simp only [GetOutput]
    cases hg : g r with
    | none =>
      rw [hg] at hr
      cases hh : h r with
      | none => trivial
      | some nd => rw [hh] at hr; simp at hr
    | some nd =>
      cases nd with
      | sensor s =>
        rw [hg] at hr
        cases hh : h r with
        | none => rw [hh] at hr; simp at hr
        | some md =>
          rw [hh] at hr
          cases md with
          | sensor t => exact ⟨rfl, w⟩
          | neuron m => simp [Node.wiring] at hr
      | neuron n =>
        obtain ⟨m, hm, hnm⟩ := neuron_of_sameWiring w hg
        rw [hm]
        have hoff : n.offset_ = m.offset_ := by
          have e := congrArg Neuron.offset_ hnm
          simpa [Neuron.wiring] using e
        have hact : n.activation_function = m.activation_function := by
          have e := congrArg Neuron.activation_function hnm
          simpa [Neuron.wiring] using e
        have hin : n.inputs_.map Input.wiring = m.inputs_.map Input.wiring := by
          have e := congrArg Neuron.inputs_ hnm
          simpa [Neuron.wiring] using e
        have hs := sumInputs_agree (GetOutput sensors fuel) r ih n.inputs_ m.inputs_ hin 0
          (n.offset_ + x) g h w
        dsimp only
        rw [← hoff, ← hact]
        cases h1 : sumInputs (GetOutput sensors fuel) r n.inputs_ 0 (n.offset_ + x) g with
        | none =>
          cases h2 : sumInputs (GetOutput sensors fuel) r m.inputs_ 0 (n.offset_ + x) h with
          | none => trivial
          | some q => rw [h1, h2] at hs; exact hs.elim
        | some p =>
          cases h2 : sumInputs (GetOutput sensors fuel) r m.inputs_ 0 (n.offset_ + x) h with
          | none => rw [h1, h2] at hs; exact hs.elim
          | some q =>
            rw [h1, h2] at hs
            obtain ⟨v1, g1⟩ := p
            obtain ⟨v2, g2⟩ := q
            obtain ⟨hv, hw⟩ := hs
            subst hv
            exact ⟨rfl, ((sameWiring_storeOutput g1 r _ _).trans hw).trans
              (sameWiring_storeOutput g2 r _ _).symm⟩

theorem sumInputs_frame (call : Store → NeuronRef → ℚ → Option (ℚ × Store)) (self : NeuronRef)
    (hcall : ∀ g r x v g1, call g r x = some (v, g1) → SameWiring g1 g) :
    ∀ (l : List Input) (k : Nat) (v : ℚ) (g : Store) (w : ℚ) (g1 : Store),
      sumInputs call self l k v g = some (w, g1) → SameWiring g1 g := by
  intro l
  induction l with
  | nil =>
    intro k v g w g1 h
    simp only [sumInputs, Option.some.injEq, Prod.mk.injEq] at h
    rw [← h.2]
    exact SameWiring.refl g
  | cons i l ih =>
    intro k v g w g1 h
    simp only [sumInputs] at h
    cases hc : call g i.neuron i.offset with
    | none => rw [hc] at h; simp at h
    | some p =>
      obtain ⟨o, g2⟩ := p
      rw [hc] at h
      have h3 := ih _ _ _ _ _ h
      exact (h3.trans (sameWiring_addContribution g2 self k _)).trans (hcall _ _ _ _ _ hc)

theorem GetOutput_frame (sensors : SensorOutputs) :
    ∀ (fuel : Nat) (g : Store) (r : NeuronRef) (x v : ℚ) (g1 : Store),
      GetOutput sensors fuel g r x = some (v, g1) → SameWiring g1 g := by
  intro fuel
  induction fuel with
  | zero => intro g r x v g1 h; simp [GetOutput] at h
  | succ fuel ih =>
    intro g r x v g1 h
    simp only [GetOutput] at h
    cases hg : g r with
    | none => rw [hg] at h; simp at h
    | some nd =>
      rw [hg] at h
      cases nd with
      | sensor s =>
        simp only [Option.some.injEq, Prod.mk.injEq] at h
        rw [← h.2]
        exact SameWiring.refl g
      | neuron n =>
        dsimp only at h
        cases hs : sumInputs (GetOutput sensors fuel) r n.inputs_ 0 (n.offset_ + x) g with
        | none => rw [hs] at h; simp at h
        | some p =>
          obtain ⟨value, g2⟩ := p
          rw [hs] at h
          simp only [Option.some.injEq, Prod.mk.injEq] at h
          rw [← h.2]
          exact (sameWiring_storeOutput g2 r _ _).trans
            (sumInputs_frame (GetOutput sensors fuel) r ih _ _ _ _ _ _ hs)

theorem isSome_of_sameWiring {g h : Store} (w : SameWiring g h) (r : NeuronRef) :
    (g r).isSome = (h r).isSome := by
  have e := congrArg Option.isSome (w r)
  simpa using e

theorem Ranked.of_sameWiring {g h : Store} {rank : NeuronRef → Nat} (w : SameWiring g h)
    (hr : Ranked g rank) : Ranked h rank := by
  intro r m hm i hi
  obtain ⟨n, hn, hnm⟩ := neuron_of_sameWiring w.symm hm
  have hin : m.inputs_.map Input.wiring = n.inputs_.map Input.wiring := by
    have e := congrArg Neuron.inputs_ hnm
    simpa [Neuron.wiring] using e
  have hmem : i.wiring ∈ n.inputs_.map Input.wiring := by
    rw [← hin]
    exact List.mem_map_of_mem _ hi
  obtain ⟨j, hj, hji⟩ := List.mem_map.mp hmem
  have hneu : j.neuron = i.neuron := by
    have e := congrArg Input.neuron hji
    simpa [Input.wiring] using e
  have := hr r n hn j hj
  rw [hneu] at this
  rw [← isSome_of_sameWiring w i.neuron]
  exact this

theorem sumInputs_value (call : Store → NeuronRef → ℚ → Option (ℚ × Store)) (self : NeuronRef)
    (g0 : Store)
    (hagree : ∀ g h r x, SameWiring g h → Agree (call g r x) (call h r x))
    (hframe : ∀ g r x v g1, call g r x = some (v, g1) → SameWiring g1 g) :
    ∀ (l : List Input), (∀ i ∈ l, (call g0 i.neuron i.offset).isSome) →
      ∀ (k : Nat) (v : ℚ) (g : Store), SameWiring g g0 →
        ∃ g1, sumInputs call self l k v g = some (v + inputSum call g0 l, g1) ∧
          SameWiring g1 g0 := by
  intro l
  induction l with
  | nil =>
    intro _ k v g w
    exact ⟨g, by simp [sumInputs, inputSum], w⟩
  | cons i l ih =>
    intro hl k v g w
    have h0 := hl i (List.mem_cons_self _ _)
    have ha := hagree g g0 i.neuron i.offset w
    cases hc0 : call g0 i.neuron i.offset with
    | none => rw [hc0] at h0; simp at h0
    | some p0 =>
      obtain ⟨o0, g00⟩ := p0
      cases hc : call g i.neuron i.offset with
      | none => rw [hc, hc0] at ha; exact ha.elim
      | some p =>
        obtain ⟨o, g2⟩ := p
        rw [hc, hc0] at ha
        obtain ⟨ho, _⟩ := ha
        subst ho
        have w2 : SameWiring (addContribution g2 self k |i.gain * o|) g0 :=
          ((sameWiring_addContribution g2 self k _).trans (hframe _ _ _ _ _ hc)).trans w
        obtain ⟨g1, hg1, w1⟩ := ih (fun j hj => hl j (List.mem_cons_of_mem _ hj)) (k + 1)
          (v + i.gain * o) _ w2
        refine ⟨g1, ?_, w1⟩
        simp only [sumInputs, hc]
        rw [hg1]
        simp [inputSum, hc0, returned, add_assoc]

theorem GetOutput_returns (sensors : SensorOutputs) (rank : NeuronRef → Nat) :
    ∀ (fuel : Nat) (g : Store), Ranked g rank → ∀ (r : NeuronRef) (x : ℚ),
      rank r < fuel → (g r).isSome → (GetOutput sensors fuel g r x).isSome := by
  intro fuel
  induction fuel with
  | zero => intro g _ r x h; simp at h
  | succ fuel ih =>
    intro g hg r x hfuel hsome
    simp only [GetOutput]
    cases hgr : g r with
    | none => rw [hgr] at hsome; simp at hsome
    | some nd =>
      cases nd with
      | sensor s => simp
      | neuron n =>
        dsimp only
        have hin : ∀ i ∈ n.inputs_, (GetOutput sensors fuel g i.neuron i.offset).isSome := by
          intro i hi
          have := hg r n hgr i hi
          exact ih g hg i.neuron i.offset (by omega) this.1
        obtain ⟨g1, hg1, _⟩ := sumInputs_value (GetOutput sensors fuel) r g
          (GetOutput_agree sensors fuel) (GetOutput_frame sensors fuel) n.inputs_ hin 0
          (n.offset_ + x) g (SameWiring.refl g)
        rw [hg1]
        simp

/-! ## Reflex names -/

/-- C1: `GetReflexName` returns the target when both names are equal and
target + "-" + source otherwise, and `GetParName` returns the same result for the
"target" and "source" values of the props, a missing "source" counting as equal to the
target (so the result is then the target name alone). -/
theorem GetParName_eq_GetReflexName (target source : String) (props : PropNode)
    (ht : props.find "target" = some target) :
    Reflex.GetReflexName target source
        = (if target = source then target else target ++ "-" ++ source) ∧
      Reflex.GetParName props
        = Except.ok (Reflex.GetReflexName target ((props.find "source").getD target)) ∧
      (props.find "source" = none → Reflex.GetParName props = Except.ok target) := by
  have hpar : Reflex.GetParName props
      = Except.ok (Reflex.GetReflexName target ((props.find "source").getD target)) := by
    unfold Reflex.GetParName Reflex.GetReflexName PropNode.get PropNode.getD
    rw [ht]
    cases props.find "source" <;> rfl
  refine ⟨?_, hpar, ?_⟩
  · unfold Reflex.GetReflexName
    by_cases h : target = source <;> simp [h]
  · intro hs
    rw [hpar, hs]
    simp [Reflex.GetReflexName]

/-- C1 at the two examples of the specification and at a props without "source". -/
theorem GetParName_eq_GetReflexName_witness :
    (PropNode.mk [("target", "soleus_r"), ("source", "gastroc_r")]).find "target"
        = some "soleus_r" ∧
      Reflex.GetParName (PropNode.mk [("target", "soleus_r"), ("source", "gastroc_r")])
        = Except.ok (Reflex.GetReflexName "soleus_r"
            (((PropNode.mk [("target", "soleus_r"), ("source", "gastroc_r")]).find
              "source").getD "soleus_r")) ∧
      Reflex.GetReflexName "soleus_r" "gastroc_r" = "soleus_r-gastroc_r" ∧
      Reflex.GetReflexName "soleus_r" "soleus_r" = "soleus_r" :=
  ⟨by decide,
   (GetParName_eq_GetReflexName "soleus_r" "gastroc_r"
      (PropNode.mk [("target", "soleus_r"), ("source", "gastroc_r")]) (by decide)).2.1,
   by decide, by decide⟩

/-! ## Node evaluation -/

theorem storeOutput_self {g : Store} {r : NeuronRef} {n : Neuron}
    (h : g r = some (Node.neuron n)) (v o : ℚ) :
    storeOutput g r v o r = some (Node.neuron { n with input_ := v, output_ := o }) := by
  unfold storeOutput
  rw [h]
  simp

theorem exampleStore_ranked (c : ℚ) : Ranked (exampleStore c) exampleRank := by
  intro r n h i hi
  unfold exampleStore at h
  by_cases h1 : r = NeuronRef.motor 0
  · subst h1
    simp only [if_true, Option.some.injEq, Node.neuron.injEq] at h
    subst h
    simp only [exampleMotor, List.mem_singleton] at hi
    subst hi
    simp [exampleStore, exampleRank]
  · rw [if_neg h1] at h
    by_cases h2 : r = NeuronRef.sensor 0
    · rw [if_pos h2] at h
      simp at h
    · rw [if_neg h2] at h
      simp at h

theorem sumInputs_returned_value (call : Store → NeuronRef → ℚ → Option (ℚ × Store))
    (self : NeuronRef) (g0 : Store)
    (hagree : ∀ g h r x, SameWiring g h → Agree (call g r x) (call h r x))
    (hframe : ∀ g r x v g1, call g r x = some (v, g1) → SameWiring g1 g) :
    ∀ (l : List Input) (k : Nat) (v : ℚ) (g : Store) (w : ℚ) (g1 : Store), SameWiring g g0 →
      sumInputs call self l k v g = some (w, g1) →
        (∀ i ∈ l, (call g0 i.neuron i.offset).isSome) ∧ w = v + inputSum call g0 l := by
  intro l
  induction l with
  | nil =>
    intro k v g w g1 _ h
    simp only [sumInputs, Option.some.injEq, Prod.mk.injEq] at h
    simp [inputSum, h.1]
  | cons i l ih =>
    intro k v g w g1 hw h
    simp only [sumInputs] at h
    have ha := hagree g g0 i.neuron i.offset hw
    cases hc : call g i.neuron i.offset with
    | none => rw [hc] at h; simp at h
    | some p =>
      obtain ⟨o, g2⟩ := p
      rw [hc] at h ha
      cases hc0 : call g0 i.neuron i.offset with
      | none => rw [hc0] at ha; exact ha.elim
      | some p0 =>
        obtain ⟨o0, g00⟩ := p0
        rw [hc0] at ha
        obtain ⟨ho, _⟩ := ha
        subst ho
        have w2 : SameWiring (addContribution g2 self k |i.gain * o|) g0 :=
          ((sameWiring_addContribution g2 self k _).trans (hframe _ _ _ _ _ hc)).trans hw
        obtain ⟨hall, hval⟩ := ih _ _ _ _ _ w2 h
        constructor
        · intro j hj
          rcases List.mem_cons.mp hj with hji | hjl
          · rw [hji, hc0]; rfl
          · exact hall j hjl
        · rw [hval]
          simp [inputSum, hc0, returned, add_assoc]

/-- C2: for a node with offset o, activation function f and input edges
(source_i, gain_i, offset_i), whenever `GetOutput(x)` returns, all calls on the sources
return, the returned value is f(o + x + sum of gain_i * source_i.GetOutput(offset_i)),
and that same value is stored as the cached output of the node.  In a graph without
cycles the call returns once the depth bound exceeds the rank of the node. -/
theorem GetOutput_formula (sensors : SensorOutputs) (g : Store) (r : NeuronRef) (n : Neuron)
    (hr : g r = some (Node.neuron n)) (x : ℚ) (fuel : Nat) :
    (∀ v g1, GetOutput sensors (fuel + 1) g r x = some (v, g1) →
        (∀ i ∈ n.inputs_, (GetOutput sensors fuel g i.neuron i.offset).isSome) ∧
        v = n.activation_function (n.offset_ + x +
              (n.inputs_.map (fun i => i.gain *
                ((returned (GetOutput sensors fuel g i.neuron i.offset)).getD 0))).sum) ∧
        ∃ n1, g1 r = some (Node.neuron n1) ∧ n1.output_ = v) ∧
      (∀ rank : NeuronRef → Nat, Ranked g rank → rank r ≤ fuel →
        ∃ g1, GetOutput sensors (fuel + 1) g r x
          = some (n.activation_function (n.offset_ + x +
              (n.inputs_.map (fun i => i.gain *
                ((returned (GetOutput sensors fuel g i.neuron i.offset)).getD 0))).sum), g1)) := by
  constructor
  · intro v g1 h
    simp only [GetOutput, hr] at h
    cases hs : sumInputs (GetOutput sensors fuel) r n.inputs_ 0 (n.offset_ + x) g with
    | none => rw [hs] at h; simp at h
    | some p =>
      obtain ⟨value, g2⟩ := p
      rw [hs] at h
      simp only [Option.some.injEq, Prod.mk.injEq] at h
      obtain ⟨hall, hval⟩ := sumInputs_returned_value (GetOutput sensors fuel) r g
        (GetOutput_agree sensors fuel) (GetOutput_frame sensors fuel) _ _ _ _ _ _
        (SameWiring.refl g) hs
      have w2 := sumInputs_frame (GetOutput sensors fuel) r (GetOutput_frame sensors fuel)
        _ _ _ _ _ _ hs
      obtain ⟨m, hm, _⟩ := neuron_of_sameWiring w2.symm hr
      refine ⟨hall, ?_, ?_⟩
      · rw [← h.1, hval]; rfl
      · rw [← h.2, ← h.1]
        exact ⟨_, storeOutput_self hm _ _, rfl⟩
  · intro rank hg hfuel
    have hin : ∀ i ∈ n.inputs_, (GetOutput sensors fuel g i.neuron i.offset).isSome := by
      intro i hi
      have h := hg r n hr i hi
      exact GetOutput_returns sensors rank fuel g hg i.neuron i.offset (by omega) h.1
    obtain ⟨g2, hg2, _⟩ := sumInputs_value (GetOutput sensors fuel) r g
      (GetOutput_agree sensors fuel) (GetOutput_frame sensors fuel) n.inputs_ hin 0
      (n.offset_ + x) g (SameWiring.refl g)
    refine ⟨storeOutput g2 r (n.offset_ + x + inputSum (GetOutput sensors fuel) g n.inputs_)
      (n.activation_function (n.offset_ + x + inputSum (GetOutput sensors fuel) g n.inputs_)),
      ?_⟩
    simp only [GetOutput, hr, hg2]
    rfl

/-- C2 on the example store: the motor node with offset 1/2 and one edge of gain 3 and
offset 1 from a sensor returns 21/2 for the offset argument 1. -/
theorem GetOutput_formula_witness :
    exampleStore 0 (NeuronRef.motor 0) = some (Node.neuron (exampleMotor 0)) ∧
      Ranked (exampleStore 0) exampleRank ∧
      exampleRank (NeuronRef.motor 0) ≤ 1 ∧
      ∃ g1, GetOutput exampleSensors 2 (exampleStore 0) (NeuronRef.motor 0) 1
          = some ((exampleMotor 0).activation_function ((exampleMotor 0).offset_ + 1 +
              ((exampleMotor 0).inputs_.map (fun i => i.gain *
                ((returned (GetOutput exampleSensors 1 (exampleStore 0) i.neuron
                  i.offset)).getD 0))).sum), g1) :=
  ⟨rfl, exampleStore_ranked 0, by decide,
   (GetOutput_formula exampleSensors (exampleStore 0) (NeuronRef.motor 0) (exampleMotor 0) rfl
      1 1).2 exampleRank (exampleStore_ranked 0) (by decide)⟩

/-- C3: in an acyclic graph, calling `GetOutput` twice on the same node with the same
offset argument, the second call running on the store left by the first (same sensor
outputs, gains and offsets), returns the same value both times. -/
theorem GetOutput_idempotent (sensors : SensorOutputs) (rank : NeuronRef → Nat) (g : Store)
    (hg : Ranked g rank) (r : NeuronRef) (hr : (g r).isSome) (x : ℚ) (fuel : Nat)
    (hfuel : rank r < fuel) :
    ∃ v g1 g2, GetOutput sensors fuel g r x = some (v, g1) ∧
      GetOutput sensors fuel g1 r x = some (v, g2) := by
  have h1 := GetOutput_returns sensors rank fuel g hg r x hfuel hr
  cases hc : GetOutput sensors fuel g r x with
  | none => rw [hc] at h1; simp at h1
  | some p =>
    obtain ⟨v, g1⟩ := p
    have w := GetOutput_frame sensors fuel g r x v g1 hc
    have ha := GetOutput_agree sensors fuel g1 g r x w
    rw [hc] at ha
    cases hc2 : GetOutput sensors fuel g1 r x with
    | none => rw [hc2] at ha; exact ha.elim
    | some q =>
      obtain ⟨v2, g2⟩ := q
      rw [hc2] at ha
      exact ⟨v, g1, g2, rfl, by rw [hc2, ha.1]⟩

/-- C3 on the example store, evaluating the motor node twice. -/
theorem GetOutput_idempotent_witness :
    Ranked (exampleStore 0) exampleRank ∧
      (exampleStore 0 (NeuronRef.motor 0)).isSome ∧
      exampleRank (NeuronRef.motor 0) < 2 ∧
      ∃ v g1 g2, GetOutput exampleSensors 2 (exampleStore 0) (NeuronRef.motor 0) 1 = some (v, g1) ∧
        GetOutput exampleSensors 2 g1 (NeuronRef.motor 0) 1 = some (v, g2) :=
  ⟨exampleStore_ranked 0, rfl, by decide,
   GetOutput_idempotent exampleSensors exampleRank (exampleStore 0) (exampleStore_ranked 0)
     (NeuronRef.motor 0) rfl 1 2 (by decide)⟩

theorem exampleStore_sameWiring (c d : ℚ) : SameWiring (exampleStore c) (exampleStore d) := by
  intro r
  unfold exampleStore
  by_cases h1 : r = NeuronRef.motor 0
  · simp [h1, Node.wiring, Neuron.wiring, exampleMotor, Input.wiring]
  · simp [h1]

/-- C4: two graphs that are identical except for the contribution accumulators of the
input edges and the cached input/output fields give the same `GetOutput` result on
corresponding nodes: both calls return the same value, or neither returns. -/
theorem GetOutput_ignores_contributions (sensors : SensorOutputs) (g h : Store)
    (w : SameWiring g h) (fuel : Nat) (r : NeuronRef) (x : ℚ) :
    returned (GetOutput sensors fuel g r x) = returned (GetOutput sensors fuel h r x) := by
  have ha := GetOutput_agree sensors fuel g h r x w
  cases h1 : GetOutput sensors fuel g r x with
  | none =>
    cases h2 : GetOutput sensors fuel h r x with
    | none => rfl
    | some q => rw [h1, h2] at ha; exact ha.elim
  | some p =>
    cases h2 : GetOutput sensors fuel h r x with
    | none => rw [h1, h2] at ha; exact ha.elim
    | some q =>
      rw [h1, h2] at ha
      obtain ⟨v1, g1⟩ := p
      obtain ⟨v2, g2⟩ := q
      simp [returned, ha.1]

/-- C4 on two example stores whose accumulators and caches hold 0 and 7: the motor
node returns 21/2 in both. -/
theorem GetOutput_ignores_contributions_witness :
    SameWiring (exampleStore 0) (exampleStore 7) ∧
      returned (GetOutput exampleSensors 2 (exampleStore 0) (NeuronRef.motor 0) 1)
        = returned (GetOutput exampleSensors 2 (exampleStore 7) (NeuronRef.motor 0) 1) ∧
      returned (GetOutput exampleSensors 2 (exampleStore 7) (NeuronRef.motor 0) 1)
        = some (21 / 2) :=
  ⟨exampleStore_sameWiring 0 7,
   GetOutput_ignores_contributions exampleSensors (exampleStore 0) (exampleStore 7)
     (exampleStore_sameWiring 0 7) 2 (NeuronRef.motor 0) 1,
   by
     simp [GetOutput, sumInputs, exampleStore, exampleMotor, exampleSensors, returned,
       exampleRectifier]
     norm_num⟩

/-- C5: for a node with no input edges, `GetOutput` with offset argument 0 returns
activation_function(offset_) and raises no error. -/
theorem GetOutput_no_inputs (sensors : SensorOutputs) (g : Store) (r : NeuronRef) (n : Neuron)
    (hr : g r = some (Node.neuron n)) (hin : n.inputs_ = []) (fuel : Nat) :
    GetOutput sensors (fuel + 1) g r 0
      = some (n.activation_function n.offset_,
          storeOutput g r n.offset_ (n.activation_function n.offset_)) := by
  simp [GetOutput, hr, hin, sumInputs]

/-- Example node without input edges. -/
theorem GetOutput_no_inputs_witness :
    (fun r => if r = NeuronRef.motor 0
        then some (Node.neuron { exampleMotor 0 with inputs_ := [] }) else none : Store)
        (NeuronRef.motor 0)
      = some (Node.neuron { exampleMotor 0 with inputs_ := [] }) ∧
    ({ exampleMotor 0 with inputs_ := [] } : Neuron).inputs_ = [] ∧
    returned (GetOutput exampleSensors 1
      (fun r => if r = NeuronRef.motor 0
        then some (Node.neuron { exampleMotor 0 with inputs_ := [] }) else none)
      (NeuronRef.motor 0) 0) = some (exampleRectifier (1 / 2)) :=
  ⟨rfl, rfl, by
    rw [GetOutput_no_inputs exampleSensors _ (NeuronRef.motor 0)
      { exampleMotor 0 with inputs_ := [] } rfl rfl 0]
    rfl⟩

/-! ## Connection rules -/

/-- C6: for every target and every candidate, the candidate is admitted by the
bilateral rule of `CheckRelation` if and only if it is admitted by the ipsilateral rule
or by the contralateral rule; none of the three rules raises an error. -/
theorem CheckRelation_bilateral_iff_ipsi_or_contra (ext : Externals) (self : Neuron)
    (sensor : SensorNeuron) (pn : PropNode) :
    (CheckRelation ext self connection_t.bilateral sensor pn = Except.ok true ↔
      (CheckRelation ext self connection_t.ipsilateral sensor pn = Except.ok true ∨
        CheckRelation ext self connection_t.contralateral sensor pn = Except.ok true)) ∧
      (∃ b, CheckRelation ext self connection_t.ipsilateral sensor pn = Except.ok b) ∧
      (∃ b, CheckRelation ext self connection_t.contralateral sensor pn = Except.ok b) := by
  refine ⟨?_, ⟨_, rfl⟩, ⟨_, rfl⟩⟩
  simp only [CheckRelation, Except.ok.injEq, true_iff]
  by_cases h : sensor.GetSide = self.GetSide
  · left; simp [h]
  · right; simp [h]

/-- C7: for every target (of any side) and every candidate, the candidate is admitted
by both the ipsilateral and the contralateral rule of `CheckRelation` if and only if
the candidate has no side. -/
theorem CheckRelation_ipsi_and_contra_iff_no_side (ext : Externals) (self : Neuron)
    (sensor : SensorNeuron) (pn : PropNode) :
    (CheckRelation ext self connection_t.ipsilateral sensor pn = Except.ok true ∧
      CheckRelation ext self connection_t.contralateral sensor pn = Except.ok true) ↔
      sensor.GetSide = Side.NoSide := by
  simp only [CheckRelation, Except.ok.injEq]
  by_cases h : sensor.GetSide = self.GetSide
  · by_cases h2 : sensor.GetSide = Side.NoSide <;> simp [h, h2]
  · by_cases h2 : sensor.GetSide = Side.NoSide <;> simp [h, h2]

theorem AddInputs_interLoop_monosynaptic (ext : Externals) (par : Params) (pn : PropNode)
    (layer : String) (right_side : Bool) :
    ∀ (nodes : List Neuron) (idx : Nat) (self : Neuron),
      AddInputs_interLoop ext par pn connection_t.monosynaptic layer right_side nodes idx self
        = Except.ok
          { self with inputs_ := self.inputs_ ++ monosynapticEdges ext par pn layer self.index_ nodes idx } := by
  intro nodes
  induction nodes with
  | nil =>
    intro idx self
    simp [AddInputs_interLoop, monosynapticEdges]
  | cons c rest ih =>
    intro idx self
    by_cases hc : c.index_ = self.index_
    · simp only [AddInputs_interLoop, AddInputs_inter, hc, beq_self_eq_true, if_true]
      rw [ih]
      simp [monosynapticEdges, List.enumFrom, List.filter, hc, Neuron.AddInput]
    · simp only [AddInputs_interLoop, AddInputs_inter]
      have hb : (c.index_ == self.index_) = false := by simpa using hc
      rw [hb]
      simp only [Bool.false_eq_true, if_false]
      rw [ih]
      simp [monosynapticEdges, List.enumFrom, List.filter, hb]

theorem monosynapticEdges_nil_of_absent (ext : Externals) (par : Params) (pn : PropNode)
    (layer : String) (index : Nat) :
    ∀ (nodes : List Neuron) (idx : Nat), (∀ c ∈ nodes, c.index_ ≠ index) →
      monosynapticEdges ext par pn layer index nodes idx = [] := by
  intro nodes
  induction nodes with
  | nil => intro idx _; rfl
  | cons c rest ih =>
    intro idx h
    have hc : (c.index_ == index) = false := by
      simpa using h c (List.mem_cons_self _ _)
    have hr := ih (idx + 1) (fun d hd => h d (List.mem_cons_of_mem _ hd))
    simp only [monosynapticEdges, List.enumFrom, List.filter, hc] at hr ⊢
    exact hr

theorem monosynapticEdges_length_le_one (ext : Externals) (par : Params) (pn : PropNode)
    (layer : String) (index : Nat) :
    ∀ (nodes : List Neuron) (idx : Nat), (nodes.map Neuron.index_).Nodup →
      (monosynapticEdges ext par pn layer index nodes idx).length ≤ 1 := by
  intro nodes
  induction nodes with
  | nil => intro idx _; simp [monosynapticEdges]
  | cons c rest ih =>
    intro idx h
    rw [List.map_cons, List.nodup_cons] at h
    by_cases hc : c.index_ = index
    · have hrest : monosynapticEdges ext par pn layer index rest (idx + 1) = [] := by
        apply monosynapticEdges_nil_of_absent
        intro d hd hdi
        apply h.1
        rw [hc, ← hdi]
        exact List.mem_map_of_mem _ hd
      have hb : (c.index_ == index) = true := by simpa using hc
      simp only [monosynapticEdges, List.enumFrom, List.filter, hb, List.map_cons,
        List.length_cons] at hrest ⊢
      simp only [List.map_eq_nil_iff] at hrest
      rw [hrest]
      simp
    · have hb : (c.index_ == index) = false := by simpa using hc
      have hr := ih (idx + 1) h.2
      simp only [monosynapticEdges, List.enumFrom, List.filter, hb] at hr ⊢
      exact hr

/-- C8 (amended): on a named layer, the monosynaptic rule of `AddInputs` admits exactly
the candidates whose index equals the index of the target, in layer order: none when
no candidate has that index, and at most one when the indices within the layer are
distinct.  On the sensor layer `CheckRelation` does not compare indices: it admits a
sensor exactly when the target has a muscle and the source name of the sensor equals
the name of the target. -/
theorem monosynaptic_admission (ext : Externals) (par : Params) (nc : NeuralController)
    (self : Neuron) (pn : PropNode) (layer : String) (nodes : List Neuron)
    (hconnect : connection_dict_parse
      (pn.getD "connect" (if pn.has_key "source" then "source" else "none"))
        = Except.ok connection_t.monosynaptic)
    (hlayer : NeuralController.FixLayerName ext (pn.getD "input_layer" "0") = layer)
    (hsensor : layer ≠ "0") (hempty : layer.isEmpty = false)
    (hnodes : nc.InterLayer layer = Except.ok nodes) :
    AddInputs ext self pn par nc
        = Except.ok
          { self with inputs_ := self.inputs_ ++ monosynapticEdges ext par pn layer self.index_ nodes 0 } ∧
      ((∀ c ∈ nodes, c.index_ ≠ self.index_) → AddInputs ext self pn par nc = Except.ok self) ∧
      ((nodes.map Neuron.index_).Nodup →
        (monosynapticEdges ext par pn layer self.index_ nodes 0).length ≤ 1) ∧
      (∀ sensor : SensorNeuron,
        CheckRelation ext self connection_t.monosynaptic sensor pn
          = Except.ok (self.muscle_.isSome && sensor.source_name_ == self.name_)) := by
  have hadd : AddInputs ext self pn par nc
      = Except.ok
        { self with inputs_ := self.inputs_ ++ monosynapticEdges ext par pn layer self.index_ nodes 0 } := by
    have hne : (layer == "0") = false := by simpa using hsensor
    have hk : (connection_t.monosynaptic == connection_t.none) = false := by decide
    simp only [AddInputs, hconnect, hk, Bool.false_eq_true, if_false, hlayer, hne, hempty,
      Bool.not_false, if_true, NeuralController.GetLayerSize, hnodes, Except.map,
      List.take_length]
    exact AddInputs_interLoop_monosynaptic ext par pn layer _ nodes 0 self
  refine ⟨hadd, ?_, ?_, ?_⟩
  · intro h
    rw [hadd, monosynapticEdges_nil_of_absent ext par pn layer self.index_ nodes 0 h]
    simp
  · exact monosynapticEdges_length_le_one ext par pn layer self.index_ nodes 0
  · intro sensor
    rfl

/-- C8 on the example controller: the declaration connects the target of index 0 to the
named layer "N1", whose two nodes have the indices 0 and 1. -/
theorem monosynaptic_admission_witness :
    connection_dict_parse
        ((PropNode.mk [("connect", "monosynaptic"), ("input_layer", "1")]).getD "connect"
          (if (PropNode.mk [("connect", "monosynaptic"), ("input_layer", "1")]).has_key "source"
            then "source" else "none"))
        = Except.ok connection_t.monosynaptic ∧
      NeuralController.FixLayerName exampleExternals
        ((PropNode.mk [("connect", "monosynaptic"), ("input_layer", "1")]).getD
          "input_layer" "0") = "N1" ∧
      "N1" ≠ "0" ∧ "N1".isEmpty = false ∧
      exampleController.InterLayer "N1"
        = Except.ok [exampleInter 0 Side.LeftSide, exampleInter 1 Side.RightSide] ∧
      AddInputs exampleExternals exampleTarget
          (PropNode.mk [("connect", "monosynaptic"), ("input_layer", "1")]) exampleParams
          exampleController
        = Except.ok
          { exampleTarget with inputs_ := exampleTarget.inputs_ ++ monosynapticEdges exampleExternals exampleParams (PropNode.mk [("connect", "monosynaptic"), ("input_layer", "1")]) "N1" exampleTarget.index_ [exampleInter 0 Side.LeftSide, exampleInter 1 Side.RightSide] 0 } ∧
      (monosynapticEdges exampleExternals exampleParams
          (PropNode.mk [("connect", "monosynaptic"), ("input_layer", "1")]) "N1"
          exampleTarget.index_ [exampleInter 0 Side.LeftSide, exampleInter 1 Side.RightSide]
          0).map Input.neuron = [NeuronRef.inter "N1" 0] :=
  ⟨rfl, by decide, by decide, by decide, rfl,
   (monosynaptic_admission exampleExternals exampleParams exampleController exampleTarget
      (PropNode.mk [("connect", "monosynaptic"), ("input_layer", "1")]) "N1"
      [exampleInter 0 Side.LeftSide, exampleInter 1 Side.RightSide]
      rfl (by decide) (by decide) (by decide) rfl).1,
   by decide⟩

/-- C8 fails on the sensor layer: for the target of index 0 named "soleus_r" the
monosynaptic rule admits the two sensors at positions 1 and 2 (force and length of
"soleus_r"), and not the sensor at position 0. -/
theorem monosynaptic_sensor_layer_counterexample :
    exampleTarget.index_ = 0 ∧
      exampleController.m_SensorNeurons.map (fun s => s.index_) = [0, 1, 2] ∧
      (AddInputs exampleExternals exampleTarget (PropNode.mk [("connect", "monosynaptic")])
          exampleParams exampleController).map (fun n => n.inputs_.map Input.neuron)
        = Except.ok [NeuronRef.sensor 1, NeuronRef.sensor 2] :=
  ⟨rfl, rfl, rfl⟩

/-! ## Conditional reflex -/

theorem Range_Test_eq_false_iff (r : Range) (v : ℚ) :
    r.Test v = false ↔ (v < r.min ∨ r.max < v) := by
  unfold Range.Test
  by_cases h1 : r.min ≤ v
  · by_cases h2 : v ≤ r.max
    · simp [h1, h2]
    · simp only [h1, h2, decide_True, decide_False, Bool.and_false, true_iff]
      exact Or.inr (not_le.mp h2)
  · simp only [h1, decide_False, Bool.false_and, true_iff]
    exact Or.inl (not_le.mp h1)

theorem ComputeControls_condition_eq_false_iff (range : Range) (dofpos dofvel : ℚ) :
    ComputeControls_condition range dofpos dofvel = false ↔
      ((dofpos < range.min ∨ range.max < dofpos) ∧
        signbit (range.GetRangeViolation dofpos) = signbit dofvel) := by
  rw [← Range_Test_eq_false_iff]
  unfold ComputeControls_condition
  cases range.Test dofpos <;>
    by_cases h : signbit (range.GetRangeViolation dofpos) = signbit dofvel <;> simp [h]

theorem ComputeControls_conditionOfSignbit_eq_false_iff (range : Range) (dofpos : ℚ)
    (dofvel_signbit : Bool) :
    ComputeControls_conditionOfSignbit range dofpos dofvel_signbit = false ↔
      ((dofpos < range.min ∨ range.max < dofpos) ∧
        signbit (range.GetRangeViolation dofpos) = dofvel_signbit) := by
  rw [← Range_Test_eq_false_iff]
  unfold ComputeControls_conditionOfSignbit
  cases range.Test dofpos <;>
    by_cases h : signbit (range.GetRangeViolation dofpos) = dofvel_signbit <;> simp [h]

/-- C9: `ComputeControls` skips the underlying `MuscleReflex::ComputeControls`, leaving
the state with the actuator inputs untouched, if and only if the delayed position lies
outside the admissible range and the sign of the range violation equals the sign of the
delayed velocity; in every other case the underlying reflex is computed.  For the range
from -5 to 5 degrees and the position 8 degrees, velocity +1 is suppressed and velocity
-1 is not. -/
theorem ComputeControls_skips_iff {σ : Type} (MuscleReflex_ComputeControls : ℚ → σ → σ)
    (range : Range) (dofpos dofvel timestamp : ℚ) (s : σ) :
    (ComputeControls_condition range dofpos dofvel = false ↔
        ((dofpos < range.min ∨ range.max < dofpos) ∧
          signbit (range.GetRangeViolation dofpos) = signbit dofvel)) ∧
      ConditionalMuscleReflex.ComputeControls MuscleReflex_ComputeControls range dofpos dofvel
          timestamp s
        = (if (dofpos < range.min ∨ range.max < dofpos) ∧
              signbit (range.GetRangeViolation dofpos) = signbit dofvel
            then s else MuscleReflex_ComputeControls timestamp s) ∧
      ConditionalMuscleReflex.ComputeControls (fun _ (n : Nat) => n + 1)
          { min := -5, max := 5 } 8 1 0 0 = 0 ∧
      ConditionalMuscleReflex.ComputeControls (fun _ (n : Nat) => n + 1)
          { min := -5, max := 5 } 8 (-1) 0 0 = 1 := by
  have hiff := ComputeControls_condition_eq_false_iff range dofpos dofvel
  refine ⟨hiff, ?_, ?_, ?_⟩
  · unfold ConditionalMuscleReflex.ComputeControls
    cases hc : ComputeControls_condition range dofpos dofvel with
    | false => rw [if_pos (hiff.mp hc)]; simp
    | true =>
      have hn : ¬ ((dofpos < range.min ∨ range.max < dofpos) ∧
          signbit (range.GetRangeViolation dofpos) = signbit dofvel) := by
        intro h
        rw [hiff.mpr h] at hc
        exact Bool.noConfusion hc
      rw [if_neg hn]; simp
  · have hc : ComputeControls_condition { min := -5, max := 5 } 8 1 = false := by
      rw [ComputeControls_condition_eq_false_iff]
      norm_num [signbit, Range.GetRangeViolation]
    simp [ConditionalMuscleReflex.ComputeControls, hc]
  · have hc : ComputeControls_condition { min := -5, max := 5 } 8 (-1) = true := by
      rw [← Bool.not_eq_false, ComputeControls_condition_eq_false_iff]
      norm_num [signbit, Range.GetRangeViolation]
    simp [ConditionalMuscleReflex.ComputeControls, hc]

/-- C10 fails: for the range from -5 to 5 degrees, the position 8 degrees and the
velocity +1 the reflex is suppressed, although the position is above the range with a
positive velocity, hence neither above the range with a negative velocity nor below
the range with a positive one. -/
theorem suppression_moving_back_counterexample :
    ComputeControls_condition { min := -5, max := 5 } 8 1 = false ∧
      ¬ ((({ min := -5, max := 5 } : Range).max < 8 ∧ (1 : ℚ) < 0) ∨
         ((8 : ℚ) < ({ min := -5, max := 5 } : Range).min ∧ (0 : ℚ) < 1)) := by
  constructor
  · rw [ComputeControls_condition_eq_false_iff]
    norm_num [signbit, Range.GetRangeViolation]
  · norm_num

/-- C10 (amended): whenever `ComputeControls` suppresses the reflex, the delayed
position is outside the range and the delayed velocity carries the sign bit of the
violation: the position is above the range and the sign bit of the velocity is clear
(a positive velocity or positive zero), or the position is below the range and the sign
bit of the velocity is set (a negative velocity or negative zero).  The velocity enters
through its sign bit, so the statement covers negative zero; on every rational velocity
the condition is the one of `ComputeControls_condition`. -/
theorem suppression_sign (range : Range) (dofpos : ℚ) (dofvel_signbit : Bool)
    (h : ComputeControls_conditionOfSignbit range dofpos dofvel_signbit = false) :
    ((range.max < dofpos ∧ signbit (range.GetRangeViolation dofpos) = false ∧
          dofvel_signbit = false) ∨
        (dofpos < range.min ∧ signbit (range.GetRangeViolation dofpos) = true ∧
          dofvel_signbit = true)) ∧
      ∀ dofvel : ℚ, ComputeControls_condition range dofpos dofvel
        = ComputeControls_conditionOfSignbit range dofpos (signbit dofvel) := by
  refine ⟨?_, fun _ => rfl⟩
  rw [ComputeControls_conditionOfSignbit_eq_false_iff] at h
  obtain ⟨hout, hsign⟩ := h
  by_cases h1 : dofpos < range.min
  · right
    have hneg : dofpos - range.min < 0 := by linarith
    have hv : signbit (range.GetRangeViolation dofpos) = true := by
      simp [Range.GetRangeViolation, signbit, h1, hneg]
    exact ⟨h1, hv, by rw [← hsign, hv]⟩
  · left
    have h2 : range.max < dofpos := by
      cases hout with
      | inl h => exact absurd h h1
      | inr h => exact h
    have hpos : ¬ (dofpos - range.max < 0) := by linarith
    have hv : signbit (range.GetRangeViolation dofpos) = false := by
      simp [Range.GetRangeViolation, signbit, h1, h2, hpos]
    exact ⟨h2, hv, by rw [← hsign, hv]⟩

/-- C10 (amended) at the range from -5 to 5 degrees and the position 8 degrees, with a
velocity whose sign bit is clear. -/
theorem suppression_sign_witness :
    ComputeControls_conditionOfSignbit { min := -5, max := 5 } 8 false = false ∧
      (((({ min := -5, max := 5 } : Range).max < 8 ∧
            signbit (({ min := -5, max := 5 } : Range).GetRangeViolation 8) = false ∧
            false = false) ∨
          ((8 : ℚ) < ({ min := -5, max := 5 } : Range).min ∧
            signbit (({ min := -5, max := 5 } : Range).GetRangeViolation 8) = true ∧
            false = true)) ∧
        ∀ dofvel : ℚ, ComputeControls_condition { min := -5, max := 5 } 8 dofvel
          = ComputeControls_conditionOfSignbit { min := -5, max := 5 } 8 (signbit dofvel)) :=
  ⟨by rw [ComputeControls_conditionOfSignbit_eq_false_iff]
      norm_num [signbit, Range.GetRangeViolation],
   suppression_sign { min := -5, max := 5 } 8 false
     (by rw [ComputeControls_conditionOfSignbit_eq_false_iff]
         norm_num [signbit, Range.GetRangeViolation])⟩

/-! ## Reflex output -/

theorem clamp_mem (v lo hi : ℚ) (h : lo ≤ hi) : lo ≤ clamp v lo hi ∧ clamp v lo hi ≤ hi := by
  unfold clamp
  by_cases h1 : v < lo
  · simp [h1, h]
  · by_cases h2 : v > hi
    · simp [h1, h2, h]
    · simp only [h1, h2, if_false]
      exact ⟨not_lt.mp h1, not_lt.mp h2⟩

theorem clamp_of_mem (v lo hi : ℚ) (h1 : lo ≤ v) (h2 : v ≤ hi) : clamp v lo hi = v := by
  unfold clamp
  simp [not_lt.mpr h1, not_lt.mpr h2]

/-- C11: for every raw command u and every clamp range with
min_control_value <= max_control_value, `AddTargetControlValue(u)` adds to the input of
the target actuator exactly one value v that lies in the range, with v = u when u is
already inside the range, and returns that same v. -/
theorem AddTargetControlValue_clamps (self : ReflexMembers) (u : ℚ)
    (h : self.min_control_value ≤ self.max_control_value) :
    (Reflex.AddTargetControlValue self u).2.m_Target.input
        = self.m_Target.input + (Reflex.AddTargetControlValue self u).1 ∧
      self.min_control_value ≤ (Reflex.AddTargetControlValue self u).1 ∧
      (Reflex.AddTargetControlValue self u).1 ≤ self.max_control_value ∧
      (self.min_control_value ≤ u → u ≤ self.max_control_value →
        (Reflex.AddTargetControlValue self u).1 = u) ∧
      (Reflex.AddTargetControlValue self u).2.min_control_value = self.min_control_value ∧
      (Reflex.AddTargetControlValue self u).2.max_control_value = self.max_control_value := by
  have hm := clamp_mem u self.min_control_value self.max_control_value h
  refine ⟨rfl, hm.1, hm.2, ?_, rfl, rfl⟩
  intro h1 h2
  exact clamp_of_mem u _ _ h1 h2

/-- C11 for the range from 0 to 1, an actuator input of 1/4 and the raw commands 3
(clamped to 1) and 1/2 (kept). -/
theorem AddTargetControlValue_clamps_witness :
    (0 : ℚ) ≤ 1 ∧
      (Reflex.AddTargetControlValue
        { min_control_value := 0, max_control_value := 1, m_Target := { input := 1 / 4 } } 3).1
        ≤ 1 ∧
      Reflex.AddTargetControlValue
        { min_control_value := 0, max_control_value := 1, m_Target := { input := 1 / 4 } } 3
        = (1, { min_control_value := 0, max_control_value := 1, m_Target := { input := 5 / 4 } }) ∧
      (Reflex.AddTargetControlValue
        { min_control_value := 0, max_control_value := 1, m_Target := { input := 1 / 4 } }
        (1 / 2)).1 = 1 / 2 :=
  ⟨by norm_num,
   (AddTargetControlValue_clamps
      { min_control_value := 0, max_control_value := 1, m_Target := { input := 1 / 4 } } 3
      (by norm_num)).2.2.1,
   by norm_num [Reflex.AddTargetControlValue, clamp, Actuator.AddInput],
   by norm_num [Reflex.AddTargetControlValue, clamp]⟩

/-! ## Gain loops -/

theorem foldl_pair_sum {α : Type} (g o : α → ℚ) (l : List α) (acc : ℚ × ℚ) :
    l.foldl (fun acc a => (acc.1 + g a, acc.2 + o a)) acc
      = (acc.1 + (l.map g).sum, acc.2 + (l.map o).sum) := by
  induction l generalizing acc with
  | nil => simp
  | cons a l ih =>
    simp only [List.foldl_cons, List.map_cons, List.sum_cons]
    rw [ih]
    simp [add_assoc]

theorem foldl_pair_sum_traced {α β : Type} (g o : α → ℚ) (t : α → List β) (l : List α)
    (acc : (ℚ × ℚ) × List β) :
    l.foldl (fun acc a => ((acc.1.1 + g a, acc.1.2 + o a), acc.2 ++ t a)) acc
      = ((acc.1.1 + (l.map g).sum, acc.1.2 + (l.map o).sum), acc.2 ++ l.flatMap t) := by
  induction l generalizing acc with
  | nil => simp
  | cons a l ih =>
    simp only [List.foldl_cons, List.map_cons, List.sum_cons, List.flatMap_cons]
    rw [ih]
    simp [add_assoc]

theorem muscleSensorGain_eq_sum (par : Params) (pn : PropNode) (mpvec spvec : List MuscleParam)
    (type_ : String) :
    muscleSensorGain par pn mpvec spvec type_
      = ((mpvec.map (fun mp => (spvec.map (fun sp => mp.correlation * sp.correlation *
            par.try_get (muscleParName mp sp type_) pn "gain" 0)).sum)).sum,
         (mpvec.map (fun mp => (spvec.map (fun sp => mp.correlation * sp.correlation *
            par.try_get (muscleParName mp sp type_ ++ "0") pn "offset" 0)).sum)).sum) := by
  unfold muscleSensorGain
  have hinner : ∀ (acc : ℚ × ℚ) (mp : MuscleParam),
      spvec.foldl (fun acc sp =>
        let parname := muscleParName mp sp type_
        let factor := mp.correlation * sp.correlation
        (acc.1 + factor * par.try_get parname pn "gain" 0,
         acc.2 + factor * par.try_get (parname ++ "0") pn "offset" 0)) acc
      = (acc.1 + (spvec.map (fun sp => mp.correlation * sp.correlation *
            par.try_get (muscleParName mp sp type_) pn "gain" 0)).sum,
         acc.2 + (spvec.map (fun sp => mp.correlation * sp.correlation *
            par.try_get (muscleParName mp sp type_ ++ "0") pn "offset" 0)).sum) := by
    intro acc mp
    exact foldl_pair_sum _ _ spvec acc
  simp only [hinner]
  rw [foldl_pair_sum]
  simp

theorem muscleSensorGainTraced_eq (par : Params) (pn : PropNode) (mpvec spvec : List MuscleParam)
    (type_ : String) :
    muscleSensorGainTraced par pn mpvec spvec type_
      = (muscleSensorGain par pn mpvec spvec type_,
         mpvec.flatMap (fun mp => spvec.flatMap (fun sp =>
           [{ name := muscleParName mp sp type_, key := "gain", dflt := 0 },
            { name := muscleParName mp sp type_ ++ "0", key := "offset", dflt := 0 }]))) := by
  rw [muscleSensorGain_eq_sum]
  unfold muscleSensorGainTraced
  have hinner : ∀ (acc : (ℚ × ℚ) × List Lookup) (mp : MuscleParam),
      spvec.foldl (fun acc sp =>
        let parname := muscleParName mp sp type_
        let factor := mp.correlation * sp.correlation
        ((acc.1.1 + factor * par.try_get parname pn "gain" 0,
          acc.1.2 + factor * par.try_get (parname ++ "0") pn "offset" 0),
         acc.2 ++ [{ name := parname, key := "gain", dflt := 0 },
                   { name := parname ++ "0", key := "offset", dflt := 0 }])) acc
      = ((acc.1.1 + (spvec.map (fun sp => mp.correlation * sp.correlation *
            par.try_get (muscleParName mp sp type_) pn "gain" 0)).sum,
          acc.1.2 + (spvec.map (fun sp => mp.correlation * sp.correlation *
            par.try_get (muscleParName mp sp type_ ++ "0") pn "offset" 0)).sum),
         acc.2 ++ spvec.flatMap (fun sp =>
           [{ name := muscleParName mp sp type_, key := "gain", dflt := 0 },
            { name := muscleParName mp sp type_ ++ "0", key := "offset", dflt := 0 }])) := by
    intro acc mp
    exact foldl_pair_sum_traced _ _ _ spvec acc
  simp only [hinner]
  rw [foldl_pair_sum_traced]
  simp

theorem gainNames_append (l1 l2 : List Lookup) :
    gainNames (l1 ++ l2) = gainNames l1 ++ gainNames l2 := by
  simp [gainNames]

theorem gainNames_inner (mp : MuscleParam) (spvec : List MuscleParam) (type_ : String) :
    gainNames (spvec.flatMap (fun sp =>
           [{ name := muscleParName mp sp type_, key := "gain", dflt := 0 },
            { name := muscleParName mp sp type_ ++ "0", key := "offset", dflt := 0 }]))
      = spvec.map (fun sp => muscleParName mp sp type_) := by
  induction spvec with
  | nil => rfl
  | cons sp spvec ih =>
    rw [List.flatMap_cons, gainNames_append, ih]
    simp [gainNames]

theorem gainNames_pairs (mpvec spvec : List MuscleParam) (type_ : String) :
    gainNames (mpvec.flatMap (fun mp => spvec.flatMap (fun sp =>
           [{ name := muscleParName mp sp type_, key := "gain", dflt := 0 },
            { name := muscleParName mp sp type_ ++ "0", key := "offset", dflt := 0 }])))
      = mpvec.flatMap (fun mp => spvec.map (fun sp => muscleParName mp sp type_)) := by
  induction mpvec with
  | nil => rfl
  | cons mp mpvec ih =>
    rw [List.flatMap_cons, List.flatMap_cons, gainNames_append, ih, gainNames_inner]

theorem muscleParName_eq (mp sp : MuscleParam) (type_ : String) :
    muscleParName mp sp type_
      = if mp.name = sp.name then mp.name ++ "." ++ type_
        else mp.name ++ "." ++ sp.name ++ "." ++ type_ := by
  unfold muscleParName
  by_cases h : mp.name = sp.name <;> simp [h]

theorem AddInputs_sensor_admitted (ext : Externals) (par : Params) (pn : PropNode)
    (connect : connection_t) (input_type : String) (mpvec : List MuscleParam) (self : Neuron)
    (idx : Nat) (sensor : SensorNeuron)
    (hmatch : ext.pattern_match sensor.type_ input_type = true)
    (hrel : CheckRelation ext self connect sensor pn = Except.ok true) :
    AddInputs_sensor ext par pn connect input_type mpvec self idx sensor
      = Except.ok (self.AddInput (NeuronRef.sensor idx)
          (sensorEdgeGain ext par pn mpvec sensor) 0) := by
  unfold AddInputs_sensor sensorEdgeGain
  rw [hmatch, hrel]
  cases sensor.muscle_ <;> rfl

/-- C12: for every pair of a target contribution (name m, correlation cm) and a source
contribution (name s, correlation cs) that `AddInputs` combines for a muscle sensor of
type tag T, the gain parameter name is m + "." + T when m = s and m + "." + s + "." + T
otherwise, the offset parameter name is that name followed by "0", both are looked up
with default 0, and the net gain of the candidate, carried by the added edge, is the sum
over all pairs of cm * cs * (value bound to the gain name of the pair). -/
theorem muscle_sensor_gain (ext : Externals) (par : Params) (pn : PropNode)
    (connect : connection_t) (input_type : String) (mpvec : List MuscleParam) (self : Neuron)
    (idx : Nat) (sensor : SensorNeuron) (m : Muscle)
    (hmatch : ext.pattern_match sensor.type_ input_type = true)
    (hrel : CheckRelation ext self connect sensor pn = Except.ok true)
    (hmuscle : sensor.muscle_ = some m) :
    (∀ mp sp : MuscleParam, muscleParName mp sp sensor.type_
        = if mp.name = sp.name then mp.name ++ "." ++ sensor.type_
          else mp.name ++ "." ++ sp.name ++ "." ++ sensor.type_) ∧
      (muscleSensorGainTraced par pn mpvec (ext.GetMuscleParams (some m) true) sensor.type_).2
        = mpvec.flatMap (fun mp => (ext.GetMuscleParams (some m) true).flatMap (fun sp =>
           [{ name := muscleParName mp sp sensor.type_, key := "gain", dflt := 0 },
            { name := muscleParName mp sp sensor.type_ ++ "0", key := "offset", dflt := 0 }])) ∧
      (muscleSensorGainTraced par pn mpvec (ext.GetMuscleParams (some m) true) sensor.type_).1
        = muscleSensorGain par pn mpvec (ext.GetMuscleParams (some m) true) sensor.type_ ∧
      AddInputs_sensor ext par pn connect input_type mpvec self idx sensor
        = Except.ok (self.AddInput (NeuronRef.sensor idx)
            ((mpvec.map (fun mp => ((ext.GetMuscleParams (some m) true).map (fun sp =>
              mp.correlation * sp.correlation *
                par.try_get (muscleParName mp sp sensor.type_) pn "gain" 0)).sum)).sum) 0) := by
  refine ⟨fun mp sp => muscleParName_eq mp sp _, ?_, ?_, ?_⟩
  · rw [muscleSensorGainTraced_eq]
  · rw [muscleSensorGainTraced_eq]
  · rw [AddInputs_sensor_admitted ext par pn connect input_type mpvec self idx sensor hmatch hrel]
    unfold sensorEdgeGain
    rw [hmuscle]
    simp only
    rw [muscleSensorGain_eq_sum]

/-- C12 on the example target and the force sensor of the same muscle, with every gain
bound to 2: one pair of contributions, looked up as "soleus.F", net gain 2. -/
theorem muscle_sensor_gain_witness :
    exampleExternals.pattern_match (exampleSensorAt 1 "F" "soleus_r").type_ "*" = true ∧
      CheckRelation exampleExternals exampleTarget connection_t.monosynaptic
        (exampleSensorAt 1 "F" "soleus_r") exampleMonosynaptic = Except.ok true ∧
      (exampleSensorAt 1 "F" "soleus_r").muscle_ = some 0 ∧
      AddInputs_sensor exampleExternals exampleParamsBound exampleMonosynaptic
          connection_t.monosynaptic "*" (exampleExternals.GetMuscleParams (some 0) false)
          exampleTarget 1 (exampleSensorAt 1 "F" "soleus_r")
        = Except.ok (exampleTarget.AddInput (NeuronRef.sensor 1)
            (((exampleExternals.GetMuscleParams (some 0) false).map (fun mp =>
              ((exampleExternals.GetMuscleParams (some 0) true).map (fun sp =>
                mp.correlation * sp.correlation *
                  exampleParamsBound.try_get
                    (muscleParName mp sp (exampleSensorAt 1 "F" "soleus_r").type_)
                    exampleMonosynaptic "gain" 0)).sum)).sum) 0) ∧
      gainNames (muscleSensorGainTraced exampleParamsBound exampleMonosynaptic
          (exampleExternals.GetMuscleParams (some 0) false)
          (exampleExternals.GetMuscleParams (some 0) true) "F").2 = ["soleus.F"] :=
  ⟨rfl, rfl, rfl,
   (muscle_sensor_gain exampleExternals exampleParamsBound exampleMonosynaptic
      connection_t.monosynaptic "*" (exampleExternals.GetMuscleParams (some 0) false)
      exampleTarget 1 (exampleSensorAt 1 "F" "soleus_r") 0 rfl rfl rfl).2.2.2,
   by decide⟩

theorem synergeticGain_eq_sum (an : Anatomy) (par : Params) (pn : PropNode)
    (mpvec spvec : List MuscleParam) (type_ : String) :
    synergeticGain an par pn mpvec spvec type_
      = ((mpvec.map (fun mp => (spvec.map (fun sp =>
            if dofsClash an mp sp then 0 else mp.correlation * sp.correlation *
              par.try_get (muscleParName mp sp type_) pn "gain" 0)).sum)).sum,
         (mpvec.map (fun mp => (spvec.map (fun sp =>
            if dofsClash an mp sp then 0 else mp.correlation * sp.correlation *
              par.try_get (muscleParName mp sp type_ ++ "0") pn "offset" 0)).sum)).sum) := by
  unfold synergeticGain
  have hbody : ∀ (mp : MuscleParam),
      (fun (acc : ℚ × ℚ) (sp : MuscleParam) =>
        if (!dofsClash an mp sp) = true then
          let parname := muscleParName mp sp type_
          let factor := mp.correlation * sp.correlation
          (acc.1 + factor * par.try_get parname pn "gain" 0,
           acc.2 + factor * par.try_get (parname ++ "0") pn "offset" 0)
        else acc)
      = (fun (acc : ℚ × ℚ) (sp : MuscleParam) =>
          (acc.1 + (if dofsClash an mp sp then 0 else mp.correlation * sp.correlation *
              par.try_get (muscleParName mp sp type_) pn "gain" 0),
           acc.2 + (if dofsClash an mp sp then 0 else mp.correlation * sp.correlation *
              par.try_get (muscleParName mp sp type_ ++ "0") pn "offset" 0))) := by
    intro mp
    funext acc sp
    cases dofsClash an mp sp <;> simp
  simp only [hbody, foldl_pair_sum]
  simp

theorem dofsClash_iff (an : Anatomy) (mp sp : MuscleParam) :
    dofsClash an mp sp = true ↔
      ∃ a ∈ mp.dofs, ∃ b ∈ sp.dofs, a ≠ b ∧ an.GetJoint a = an.GetJoint b := by
  simp [dofsClash]

/-- C13 fails: the target and the sensor contribution both act on dof 0, so their dof
sets overlap, and the pair still adds its gain 2 (and offset 3) in the sensor loop of
`AddInputs` and in `AddSynergeticInput`. -/
theorem dof_overlap_counterexample :
    exampleExternalsDofs.GetMuscleParams (some 0) false
        = [{ name := "soleus", correlation := 1, dofs := [0] }] ∧
      exampleExternalsDofs.GetMuscleParams (some 0) true
        = [{ name := "soleus", correlation := 1, dofs := [0] }] ∧
      AddInputs_sensor exampleExternalsDofs exampleParamsBound exampleMonosynaptic
          connection_t.monosynaptic "*" (exampleExternalsDofs.GetMuscleParams (some 0) false)
          exampleTarget 1 (exampleSensorAt 1 "F" "soleus_r")
        = Except.ok (exampleTarget.AddInput (NeuronRef.sensor 1) 2 0) ∧
      AddSynergeticInput exampleExternalsDofs exampleAnatomy exampleTarget (NeuronRef.sensor 1)
          (exampleSensorAt 1 "F" "soleus_r") exampleMonosynaptic exampleParamsBound
        = Except.ok (exampleTarget.AddInput (NeuronRef.sensor 1) 2 3) := by
  refine ⟨rfl, rfl, ?_, ?_⟩
  · rw [AddInputs_sensor_admitted exampleExternalsDofs exampleParamsBound exampleMonosynaptic
      connection_t.monosynaptic "*" (exampleExternalsDofs.GetMuscleParams (some 0) false)
      exampleTarget 1 (exampleSensorAt 1 "F" "soleus_r") rfl rfl]
    unfold sensorEdgeGain
    simp only [exampleSensorAt, exampleSensor]
    rw [muscleSensorGain_eq_sum]
    simp [exampleExternalsDofs, exampleParamsBound]
  · unfold AddSynergeticInput
    simp only [exampleSensorAt, exampleSensor, exampleTarget, exampleMotor]
    rw [synergeticGain_eq_sum]
    simp [exampleExternalsDofs, exampleParamsBound, exampleAnatomy, common_joints, dofsClash]

/-- C13 (amended): in the sensor loop of `AddInputs` every pair of the cross product of
target and source contributions adds to the gain and offset, whatever the dof sets; in
`AddSynergeticInput` a pair adds to the gain and offset exactly when no dof of the
target contribution shares its joint with a different dof of the source contribution,
so a dof common to both sets does not exclude the pair. -/
theorem contribution_pairs (an : Anatomy) (par : Params) (pn : PropNode)
    (mpvec spvec : List MuscleParam) (type_ : String) :
    muscleSensorGain par pn mpvec spvec type_
        = ((mpvec.map (fun mp => (spvec.map (fun sp => mp.correlation * sp.correlation *
            par.try_get (muscleParName mp sp type_) pn "gain" 0)).sum)).sum,
           (mpvec.map (fun mp => (spvec.map (fun sp => mp.correlation * sp.correlation *
            par.try_get (muscleParName mp sp type_ ++ "0") pn "offset" 0)).sum)).sum) ∧
      synergeticGain an par pn mpvec spvec type_
        = ((mpvec.map (fun mp => (spvec.map (fun sp =>
            if dofsClash an mp sp then 0 else mp.correlation * sp.correlation *
              par.try_get (muscleParName mp sp type_) pn "gain" 0)).sum)).sum,
           (mpvec.map (fun mp => (spvec.map (fun sp =>
            if dofsClash an mp sp then 0 else mp.correlation * sp.correlation *
              par.try_get (muscleParName mp sp type_ ++ "0") pn "offset" 0)).sum)).sum) ∧
      (∀ mp sp : MuscleParam, dofsClash an mp sp = true ↔
        ∃ a ∈ mp.dofs, ∃ b ∈ sp.dofs, a ≠ b ∧ an.GetJoint a = an.GetJoint b) :=
  ⟨muscleSensorGain_eq_sum par pn mpvec spvec type_,
   synergeticGain_eq_sum an par pn mpvec spvec type_,
   fun mp sp => dofsClash_iff an mp sp⟩

theorem AddInputs_sensor_shape (ext : Externals) (par : Params) (pn : PropNode)
    (connect : connection_t) (input_type : String) (mpvec : List MuscleParam) (self : Neuron)
    (idx : Nat) (sensor : SensorNeuron) (self1 : Neuron)
    (h : AddInputs_sensor ext par pn connect input_type mpvec self idx sensor = Except.ok self1) :
    self1 = self ∨
      self1 = self.AddInput (NeuronRef.sensor idx) (sensorEdgeGain ext par pn mpvec sensor) 0 := by
  unfold AddInputs_sensor at h
  cases hm : ext.pattern_match sensor.type_ input_type with
  | false =>
    rw [hm] at h
    simp only [Bool.false_eq_true, if_false, Except.ok.injEq] at h
    exact Or.inl h.symm
  | true =>
    rw [hm] at h
    simp only [if_true] at h
    cases hr : CheckRelation ext self connect sensor pn with
    | error e => rw [hr] at h; simp at h
    | ok b =>
      rw [hr] at h
      cases b with
      | false =>
        simp only [Except.ok.injEq] at h
        exact Or.inl h.symm
      | true =>
        simp only [Except.ok.injEq] at h
        right
        rw [← h]
        unfold sensorEdgeGain
        cases sensor.muscle_ <;> rfl

/-- C14 is violated by the code: with every gain bound to 2 and every offset bound to 3,
the sensor loop of `AddInputs` accumulates the offset 3 for the admitted sensors but the
edges it adds carry the offset 0, whereas `AddSynergeticInput` passes the accumulated
offset on.  In general every edge added by the sensor loop has offset 0. -/
theorem sensor_edge_offset_dropped :
    muscleSensorGain exampleParamsBound exampleMonosynaptic
        (exampleExternals.GetMuscleParams (some 0) false)
        (exampleExternals.GetMuscleParams (some 0) true) "F" = (2, 3) ∧
      (AddInputs exampleExternals exampleTarget exampleMonosynaptic exampleParamsBound
          exampleController).map (fun n => n.inputs_.map (fun i => (i.neuron, i.gain, i.offset)))
        = Except.ok [(NeuronRef.sensor 1, 2, 0), (NeuronRef.sensor 2, 2, 0)] ∧
      AddSynergeticInput exampleExternals exampleAnatomy exampleTarget (NeuronRef.sensor 1)
          (exampleSensorAt 1 "F" "soleus_r") exampleMonosynaptic exampleParamsBound
        = Except.ok (exampleTarget.AddInput (NeuronRef.sensor 1) 2 3) ∧
      (∀ (ext : Externals) (par : Params) (pn : PropNode) (connect : connection_t)
          (input_type : String) (mpvec : List MuscleParam) (self : Neuron) (idx : Nat)
          (sensor : SensorNeuron) (self1 : Neuron),
        AddInputs_sensor ext par pn connect input_type mpvec self idx sensor = Except.ok self1 →
          ∀ i ∈ self1.inputs_, i ∈ self.inputs_ ∨ i.offset = 0) := by
  refine ⟨?_, ?_, ?_, ?_⟩
  · rw [muscleSensorGain_eq_sum]
    simp [exampleExternals, exampleParamsBound]
  · have h : AddInputs exampleExternals exampleTarget exampleMonosynaptic exampleParamsBound
          exampleController
        = Except.ok ((exampleTarget.AddInput (NeuronRef.sensor 1) 2 0).AddInput
            (NeuronRef.sensor 2) 2 0) := by
      simp [AddInputs, exampleMonosynaptic, PropNode.getD, PropNode.find, PropNode.has_key,
        connection_dict_parse, connection_dict, NeuralController.FixLayerName, exampleExternals,
        exampleFromStr, NeuralController.GetLayerSize, exampleController, AddInputs_sensorLoop,
        AddInputs_sensor, CheckRelation, exampleSensorAt, exampleSensor, exampleTarget,
        exampleMotor, muscleSensorGain, muscleParName, exampleParamsBound, Neuron.AddInput]
    rw [h]
    rfl
  · unfold AddSynergeticInput
    simp only [exampleSensorAt, exampleSensor, exampleTarget, exampleMotor]
    rw [synergeticGain_eq_sum]
    simp [exampleExternals, exampleParamsBound, exampleAnatomy, common_joints, dofsClash]
  · intro ext par pn connect input_type mpvec self idx sensor self1 h i hi
    rcases AddInputs_sensor_shape ext par pn connect input_type mpvec self idx sensor self1 h
      with h1 | h1
    · rw [h1] at hi; exact Or.inl hi
    · rw [h1] at hi
      simp only [Neuron.AddInput, List.mem_append, List.mem_singleton] at hi
      rcases hi with h2 | h2
      · exact Or.inl h2
      · right; rw [h2]

/-- C15: for a left-side and a right-side target/source pair whose contribution lists
are equal and whose sensor type tags are equal, the sensor loop of `AddInputs` looks up
the same sequence of gain names for both sides and, against one shared parameter
binding, gives both added edges the same net gain. -/
theorem symmetric_gain (ext : Externals) (par : Params) (pn : PropNode) (connect : connection_t)
    (input_type : String) (selfL selfR : Neuron) (idxL idxR : Nat)
    (sensorL sensorR : SensorNeuron) (mL mR : Muscle)
    (htarget : ext.GetMuscleParams selfL.muscle_ false = ext.GetMuscleParams selfR.muscle_ false)
    (hmL : sensorL.muscle_ = some mL) (hmR : sensorR.muscle_ = some mR)
    (hsource : ext.GetMuscleParams (some mL) true = ext.GetMuscleParams (some mR) true)
    (htype : sensorL.type_ = sensorR.type_)
    (hmatch : ext.pattern_match sensorL.type_ input_type = true)
    (hrelL : CheckRelation ext selfL connect sensorL pn = Except.ok true)
    (hrelR : CheckRelation ext selfR connect sensorR pn = Except.ok true) :
    gainNames (muscleSensorGainTraced par pn (ext.GetMuscleParams selfL.muscle_ false)
        (ext.GetMuscleParams sensorL.muscle_ true) sensorL.type_).2
      = gainNames (muscleSensorGainTraced par pn (ext.GetMuscleParams selfR.muscle_ false)
        (ext.GetMuscleParams sensorR.muscle_ true) sensorR.type_).2 ∧
    gainNames (muscleSensorGainTraced par pn (ext.GetMuscleParams selfL.muscle_ false)
        (ext.GetMuscleParams sensorL.muscle_ true) sensorL.type_).2
      = (ext.GetMuscleParams selfL.muscle_ false).flatMap (fun mp =>
          (ext.GetMuscleParams sensorL.muscle_ true).map (fun sp =>
            muscleParName mp sp sensorL.type_)) ∧
    ∃ gain : ℚ,
      AddInputs_sensor ext par pn connect input_type (ext.GetMuscleParams selfL.muscle_ false)
          selfL idxL sensorL
        = Except.ok (selfL.AddInput (NeuronRef.sensor idxL) gain 0) ∧
      AddInputs_sensor ext par pn connect input_type (ext.GetMuscleParams selfR.muscle_ false)
          selfR idxR sensorR
        = Except.ok (selfR.AddInput (NeuronRef.sensor idxR) gain 0) := by
  have hmatchR : ext.pattern_match sensorR.type_ input_type = true := by rw [← htype]; exact hmatch
  refine ⟨?_, ?_, sensorEdgeGain ext par pn (ext.GetMuscleParams selfL.muscle_ false) sensorL,
    AddInputs_sensor_admitted ext par pn connect input_type _ selfL idxL sensorL hmatch hrelL, ?_⟩
  · rw [htarget, hmL, hmR, hsource, htype]
  · rw [muscleSensorGainTraced_eq, gainNames_pairs]
  · rw [AddInputs_sensor_admitted ext par pn connect input_type _ selfR idxR sensorR hmatchR hrelR]
    unfold sensorEdgeGain
    rw [htarget, hmL, hmR]
    simp only
    rw [hsource, htype]

/-- C15 on the left and the right soleus, each with the force sensor of its own muscle. -/
theorem symmetric_gain_witness :
    exampleExternals.GetMuscleParams exampleTargetLeft.muscle_ false
        = exampleExternals.GetMuscleParams exampleTarget.muscle_ false ∧
      exampleSensorLeft.muscle_ = some 1 ∧
      (exampleSensorAt 1 "F" "soleus_r").muscle_ = some 0 ∧
      exampleSensorLeft.type_ = (exampleSensorAt 1 "F" "soleus_r").type_ ∧
      CheckRelation exampleExternals exampleTargetLeft connection_t.monosynaptic
        exampleSensorLeft exampleMonosynaptic = Except.ok true ∧
      CheckRelation exampleExternals exampleTarget connection_t.monosynaptic
        (exampleSensorAt 1 "F" "soleus_r") exampleMonosynaptic = Except.ok true ∧
      ∃ gain : ℚ,
        AddInputs_sensor exampleExternals exampleParamsBound exampleMonosynaptic
            connection_t.monosynaptic "*"
            (exampleExternals.GetMuscleParams exampleTargetLeft.muscle_ false)
            exampleTargetLeft 0 exampleSensorLeft
          = Except.ok (exampleTargetLeft.AddInput (NeuronRef.sensor 0) gain 0) ∧
        AddInputs_sensor exampleExternals exampleParamsBound exampleMonosynaptic
            connection_t.monosynaptic "*"
            (exampleExternals.GetMuscleParams exampleTarget.muscle_ false)
            exampleTarget 1 (exampleSensorAt 1 "F" "soleus_r")
          = Except.ok (exampleTarget.AddInput (NeuronRef.sensor 1) gain 0) :=
  ⟨rfl, rfl, rfl, rfl, rfl, rfl,
   (symmetric_gain exampleExternals exampleParamsBound exampleMonosynaptic
      connection_t.monosynaptic "*" exampleTargetLeft exampleTarget 0 1 exampleSensorLeft
      (exampleSensorAt 1 "F" "soleus_r") 1 0 rfl rfl rfl rfl rfl rfl rfl rfl).2.2⟩

/-! ## Connection kinds -/

/-- C16: for every `connection_t` value outside the nine declared kinds,
`CheckRelation` raises "Invalid connection type" and admits no source; a declaration
whose kind name the dictionary does not know makes `AddInputs` fail as well. -/
theorem CheckRelation_invalid_kind (ext : Externals) (self : Neuron) (sensor : SensorNeuron)
    (pn : PropNode) (raw : Nat) :
    CheckRelation ext self (connection_t.invalid raw) sensor pn
        = Except.error ("Invalid connection type: " ++
            connection_dict_name (connection_t.invalid raw)) ∧
      (∀ b : Bool, CheckRelation ext self (connection_t.invalid raw) sensor pn ≠ Except.ok b) ∧
      (∀ (par : Params) (nc : NeuralController) (e : String),
        connection_dict_parse
            (pn.getD "connect" (if pn.has_key "source" then "source" else "none"))
          = Except.error e →
        AddInputs ext self pn par nc = Except.error e) := by
  refine ⟨rfl, ?_, ?_⟩
  · intro b h
    simp [CheckRelation] at h
  · intro par nc e h
    simp only [AddInputs, h]

/-- C16 for a declaration with the unknown kind name "diagonal". -/
theorem CheckRelation_invalid_kind_witness :
    connection_dict_parse
        ((PropNode.mk [("connect", "diagonal")]).getD "connect"
          (if (PropNode.mk [("connect", "diagonal")]).has_key "source" then "source" else "none"))
        = Except.error "Unknown connection kind: diagonal" ∧
      AddInputs exampleExternals exampleTarget (PropNode.mk [("connect", "diagonal")])
          exampleParams exampleController
        = Except.error "Unknown connection kind: diagonal" :=
  ⟨rfl,
   (CheckRelation_invalid_kind exampleExternals exampleTarget exampleSensor
      (PropNode.mk [("connect", "diagonal")]) 9).2.2 exampleParams exampleController
      "Unknown connection kind: diagonal" rfl⟩

/-! ## Kinds none and bilateral -/

theorem AddInputs_sensorLoop_none (ext : Externals) (par : Params) (pn : PropNode)
    (input_type : String) (mpvec : List MuscleParam) :
    ∀ (sensors : List SensorNeuron) (idx : Nat) (self : Neuron),
      AddInputs_sensorLoop ext par pn connection_t.none input_type mpvec sensors idx self
        = Except.ok self := by
  intro sensors
  induction sensors with
  | nil => intro idx self; rfl
  | cons s rest ih =>
    intro idx self
    have hs : AddInputs_sensor ext par pn connection_t.none input_type mpvec self idx s
        = Except.ok self := by
      unfold AddInputs_sensor
      cases ext.pattern_match s.type_ input_type <;> simp [CheckRelation]
    simp only [AddInputs_sensorLoop, hs]
    exact ih (idx + 1) self

theorem AddInputs_interLoop_none (ext : Externals) (par : Params) (pn : PropNode)
    (layer : String) (right_side : Bool) (c : Neuron) (rest : List Neuron) (idx : Nat)
    (self : Neuron) :
    AddInputs_interLoop ext par pn connection_t.none layer right_side (c :: rest) idx self
      = Except.error "Invalid connection type: none" := by
  simp only [AddInputs_interLoop, AddInputs_inter]
  rfl

/-- C17 (amended): resolving a rule of kind none in `AddInputs` completes without error
and adds no input edge when the candidate layer is the sensor layer (of any size), when
it is an empty named layer, and when no input layer is given; for a named layer with at
least one node it raises "Invalid connection type: none". -/
theorem none_admits_nothing (ext : Externals) (par : Params) (nc : NeuralController)
    (self : Neuron) (pn : PropNode) (layer : String)
    (hconnect : connection_dict_parse
      (pn.getD "connect" (if pn.has_key "source" then "source" else "none"))
        = Except.ok connection_t.none)
    (hlayer : NeuralController.FixLayerName ext (pn.getD "input_layer" "") = layer) :
    (layer = "0" → AddInputs ext self pn par nc = Except.ok self) ∧
      (layer ≠ "0" → layer.isEmpty = false → ∀ nodes : List Neuron,
        nc.InterLayer layer = Except.ok nodes →
          (nodes = [] → AddInputs ext self pn par nc = Except.ok self) ∧
          (nodes ≠ [] →
            AddInputs ext self pn par nc = Except.error "Invalid connection type: none")) ∧
      (layer.isEmpty = true →
        ∃ self1, AddInputs ext self pn par nc = Except.ok self1 ∧ self1.inputs_ = self.inputs_) := by
  have hk : (connection_t.none == connection_t.none) = true := by decide
  refine ⟨?_, ?_, ?_⟩
  · intro h0
    subst h0
    simp only [AddInputs, hconnect, hk, if_true, hlayer, beq_self_eq_true,
      NeuralController.GetLayerSize, List.take_length]
    exact AddInputs_sensorLoop_none ext par pn _ _ nc.m_SensorNeurons 0 self
  · intro hne hempty nodes hnodes
    have hb : (layer == "0") = false := by simpa using hne
    constructor
    · intro hnil
      subst hnil
      simp only [AddInputs, hconnect, hk, if_true, hlayer, hb, Bool.false_eq_true, if_false,
        hempty, Bool.not_false, NeuralController.GetLayerSize, hnodes, Except.map]
      rfl
    · intro hcons
      cases nodes with
      | nil => exact absurd rfl hcons
      | cons c rest =>
        simp only [AddInputs, hconnect, hk, if_true, hlayer, hb, Bool.false_eq_true, if_false,
          hempty, Bool.not_false, NeuralController.GetLayerSize, hnodes, Except.map,
          List.take_length]
        exact AddInputs_interLoop_none ext par pn layer _ c rest 0 self
  · intro hempty
    have hb : (layer == "0") = false := by
      have hne : layer ≠ "0" := by
        intro h
        rw [h] at hempty
        exact absurd hempty (by decide)
      simpa using hne
    simp only [AddInputs, hconnect, hk, if_true, hlayer, hb, Bool.false_eq_true, if_false,
      hempty, Bool.not_true]
    by_cases hoff : pn.has_key "offset" = true
    · rw [if_pos hoff]
      exact ⟨_, rfl, rfl⟩
    · rw [if_neg hoff]
      exact ⟨_, rfl, rfl⟩

/-- C17 (amended) on the example controller, for a declaration of kind none that names
the sensor layer. -/
theorem none_admits_nothing_witness :
    connection_dict_parse
        (exampleNoneSensors.getD "connect"
          (if exampleNoneSensors.has_key "source" then "source" else "none"))
        = Except.ok connection_t.none ∧
      NeuralController.FixLayerName exampleExternals (exampleNoneSensors.getD "input_layer" "")
        = "0" ∧
      AddInputs exampleExternals exampleTarget exampleNoneSensors exampleParams exampleController
        = Except.ok exampleTarget :=
  ⟨rfl, by decide,
   (none_admits_nothing exampleExternals exampleParams exampleController exampleTarget
      exampleNoneSensors "0" rfl (by decide)).1 rfl⟩

/-- C17 fails on a named layer: the layer "N1" of the example controller has two nodes,
and resolving a declaration of kind none against it raises an error. -/
theorem none_named_layer_counterexample :
    (exampleController.GetLayerSize "N1") = Except.ok 2 ∧
      AddInputs exampleExternals exampleTarget exampleNoneNamed exampleParams exampleController
        = Except.error "Invalid connection type: none" :=
  ⟨rfl, rfl⟩

theorem AddInputs_interLoop_bilateral (ext : Externals) (par : Params) (pn : PropNode)
    (layer : String) (right_side : Bool) :
    ∀ (nodes : List Neuron) (idx : Nat) (self : Neuron),
      AddInputs_interLoop ext par pn connection_t.bilateral layer right_side nodes idx self
        = Except.ok
          { self with inputs_ := self.inputs_ ++ bilateralEdges ext par pn layer right_side nodes idx } := by
  intro nodes
  induction nodes with
  | nil =>
    intro idx self
    simp [AddInputs_interLoop, bilateralEdges]
  | cons c rest ih =>
    intro idx self
    simp only [AddInputs_interLoop, AddInputs_inter]
    rw [ih]
    simp [bilateralEdges, List.enumFrom, Neuron.AddInput]

theorem AddInputs_sensorLoop_bilateral (ext : Externals) (par : Params) (pn : PropNode)
    (input_type : String) (mpvec : List MuscleParam) :
    ∀ (sensors : List SensorNeuron) (idx : Nat) (self : Neuron),
      AddInputs_sensorLoop ext par pn connection_t.bilateral input_type mpvec sensors idx self
        = Except.ok
          { self with inputs_ := self.inputs_ ++ bilateralSensorEdges ext par pn input_type mpvec sensors idx } := by
  intro sensors
  induction sensors with
  | nil =>
    intro idx self
    simp [AddInputs_sensorLoop, bilateralSensorEdges]
  | cons s rest ih =>
    intro idx self
    cases hm : ext.pattern_match s.type_ input_type with
    | true =>
      have hs := AddInputs_sensor_admitted ext par pn connection_t.bilateral input_type mpvec
        self idx s hm rfl
      simp only [AddInputs_sensorLoop, hs]
      rw [ih]
      simp [bilateralSensorEdges, List.enumFrom, List.filter, hm, Neuron.AddInput]
    | false =>
      have hs : AddInputs_sensor ext par pn connection_t.bilateral input_type mpvec self idx s
          = Except.ok self := by
        unfold AddInputs_sensor
        rw [hm]
        rfl
      simp only [AddInputs_sensorLoop, hs]
      rw [ih]
      simp [bilateralSensorEdges, List.enumFrom, List.filter, hm]

theorem bilateralEdges_neurons (ext : Externals) (par : Params) (pn : PropNode) (layer : String)
    (right_side : Bool) :
    ∀ (nodes : List Neuron) (idx : Nat),
      (bilateralEdges ext par pn layer right_side nodes idx).map Input.neuron
        = (List.range' idx nodes.length).map (NeuronRef.inter layer) := by
  intro nodes
  induction nodes with
  | nil => intro idx; rfl
  | cons c rest ih =>
    intro idx
    have h := ih (idx + 1)
    simp only [bilateralEdges, List.enumFrom, List.map_cons, List.length_cons, List.range'_succ]
      at h ⊢
    rw [h]

theorem bilateralSensorEdges_all (ext : Externals) (par : Params) (pn : PropNode)
    (input_type : String) (mpvec : List MuscleParam) :
    ∀ (sensors : List SensorNeuron) (idx : Nat),
      (∀ s ∈ sensors, ext.pattern_match s.type_ input_type = true) →
      (bilateralSensorEdges ext par pn input_type mpvec sensors idx).map Input.neuron
        = (List.range' idx sensors.length).map NeuronRef.sensor := by
  intro sensors
  induction sensors with
  | nil => intro idx _; rfl
  | cons s rest ih =>
    intro idx hall
    have hs : ext.pattern_match s.type_ input_type = true := hall s (List.mem_cons_self _ _)
    have h := ih (idx + 1) (fun t ht => hall t (List.mem_cons_of_mem _ ht))
    simp only [bilateralSensorEdges, List.enumFrom, List.filter, hs, List.map_cons,
      List.length_cons, List.range'_succ] at h ⊢
    rw [h]

/-- C18 (amended): for a named candidate layer of N nodes, resolving a bilateral rule in
`AddInputs` adds exactly N input edges, one per candidate, in layer order.  For the
sensor layer it adds one edge per sensor whose type tag matches the type pattern of the
declaration, in layer order: N edges when the pattern matches every sensor. -/
theorem bilateral_admits (ext : Externals) (par : Params) (nc : NeuralController)
    (self : Neuron) (pn : PropNode) (layer : String)
    (hconnect : connection_dict_parse
      (pn.getD "connect" (if pn.has_key "source" then "source" else "none"))
        = Except.ok connection_t.bilateral)
    (hlayer : NeuralController.FixLayerName ext (pn.getD "input_layer" "0") = layer) :
    (layer ≠ "0" → layer.isEmpty = false → ∀ nodes : List Neuron,
        nc.InterLayer layer = Except.ok nodes →
        ∃ edges : List Input,
          AddInputs ext self pn par nc = Except.ok { self with inputs_ := self.inputs_ ++ edges } ∧
          edges.map Input.neuron = (List.range nodes.length).map (NeuronRef.inter layer)) ∧
      (layer = "0" →
        AddInputs ext self pn par nc
          = Except.ok
            { self with inputs_ := self.inputs_ ++ bilateralSensorEdges ext par pn (pn.getD "type" "*") (ext.GetMuscleParams self.muscle_ false) nc.m_SensorNeurons 0 } ∧
        ((∀ s ∈ nc.m_SensorNeurons, ext.pattern_match s.type_ (pn.getD "type" "*") = true) →
          (bilateralSensorEdges ext par pn (pn.getD "type" "*")
              (ext.GetMuscleParams self.muscle_ false) nc.m_SensorNeurons 0).map Input.neuron
            = (List.range nc.m_SensorNeurons.length).map NeuronRef.sensor)) := by
  have hk : (connection_t.bilateral == connection_t.none) = false := by decide
  constructor
  · intro hne hempty nodes hnodes
    have hb : (layer == "0") = false := by simpa using hne
    refine ⟨bilateralEdges ext par pn layer (self.GetSide == Side.RightSide) nodes 0, ?_, ?_⟩
    · simp only [AddInputs, hconnect, hk, Bool.false_eq_true, if_false, hlayer, hb, hempty,
        Bool.not_false, if_true, NeuralController.GetLayerSize, hnodes, Except.map,
        List.take_length]
      exact AddInputs_interLoop_bilateral ext par pn layer _ nodes 0 self
    · rw [bilateralEdges_neurons, List.range_eq_range']
  · intro h0
    subst h0
    constructor
    · simp only [AddInputs, hconnect, hk, Bool.false_eq_true, if_false, hlayer,
        beq_self_eq_true, if_true, NeuralController.GetLayerSize, List.take_length]
      exact AddInputs_sensorLoop_bilateral ext par pn _ _ nc.m_SensorNeurons 0 self
    · intro hall
      rw [bilateralSensorEdges_all ext par pn _ _ nc.m_SensorNeurons 0 hall,
        List.range_eq_range']

/-- C18 (amended) on the example controller: the bilateral declaration on the layer "1"
adds one edge for each of the two nodes of "N1". -/
theorem bilateral_admits_witness :
    connection_dict_parse
        (exampleSelfLayer.getD "connect"
          (if exampleSelfLayer.has_key "source" then "source" else "none"))
        = Except.ok connection_t.bilateral ∧
      NeuralController.FixLayerName exampleExternals (exampleSelfLayer.getD "input_layer" "0")
        = "N1" ∧
      "N1" ≠ "0" ∧ "N1".isEmpty = false ∧
      exampleController.InterLayer "N1"
        = Except.ok [exampleInter 0 Side.LeftSide, exampleInter 1 Side.RightSide] ∧
      ∃ edges : List Input,
        AddInputs exampleExternals exampleTarget exampleSelfLayer exampleParams exampleController
          = Except.ok { exampleTarget with inputs_ := exampleTarget.inputs_ ++ edges } ∧
        edges.map Input.neuron
          = (List.range [exampleInter 0 Side.LeftSide, exampleInter 1 Side.RightSide].length).map
              (NeuronRef.inter "N1") :=
  ⟨rfl, by decide, by decide, by decide, rfl,
   (bilateral_admits exampleExternals exampleParams exampleController exampleTarget
      exampleSelfLayer "N1" rfl (by decide)).1 (by decide) (by decide)
      [exampleInter 0 Side.LeftSide, exampleInter 1 Side.RightSide] rfl⟩

/-- C18 fails on the sensor layer: the example sensor layer has three nodes, and the
bilateral declaration with the type pattern "F" adds two edges, for the two force
sensors. -/
theorem bilateral_sensor_layer_counterexample :
    exampleController.GetLayerSize "0" = Except.ok 3 ∧
      (AddInputs exampleExternals exampleTarget exampleBilateralForce exampleParams
          exampleController).map (fun n => n.inputs_.map Input.neuron)
        = Except.ok [NeuronRef.sensor 0, NeuronRef.sensor 1] :=
  ⟨rfl, rfl⟩

/-! ## Termination -/

theorem sumInputs_self_edge (call : Store → NeuronRef → ℚ → Option (ℚ × Store))
    (self : NeuronRef) (g0 : Store)
    (hcall : ∀ g x, SameWiring g g0 → call g self x = none)
    (hframe : ∀ g r x v g1, call g r x = some (v, g1) → SameWiring g1 g) :
    ∀ (l : List Input), (∃ i ∈ l, i.neuron = self) →
      ∀ (k : Nat) (v : ℚ) (g : Store), SameWiring g g0 → sumInputs call self l k v g = none := by
  intro l
  induction l with
  | nil =>
    intro h
    obtain ⟨i, hi, _⟩ := h
    simp at hi
  | cons i l ih =>
    intro h k v g w
    simp only [sumInputs]
    cases hc : call g i.neuron i.offset with
    | none => rfl
    | some p =>
      obtain ⟨o, g1⟩ := p
      by_cases hself : i.neuron = self
      · rw [hself, hcall g i.offset w] at hc
        simp at hc
      · have hrest : ∃ j ∈ l, j.neuron = self := by
          obtain ⟨j, hj, hjs⟩ := h
          rcases List.mem_cons.mp hj with hji | hjl
          · rw [hji] at hjs; exact absurd hjs hself
          · exact ⟨j, hjl, hjs⟩
        exact ih hrest (k + 1) _ _
          (((sameWiring_addContribution g1 self k _).trans (hframe _ _ _ _ _ hc)).trans w)

theorem GetOutput_self_edge (sensors : SensorOutputs) (g0 : Store) (r : NeuronRef) (n0 : Neuron)
    (h0 : g0 r = some (Node.neuron n0)) (hself : ∃ i ∈ n0.inputs_, i.neuron = r) :
    ∀ (fuel : Nat) (g : Store) (x : ℚ), SameWiring g g0 → GetOutput sensors fuel g r x = none := by
  intro fuel
  induction fuel with
  | zero => intro g x _; rfl
  | succ fuel ih =>
    intro g x w
    obtain ⟨n, hn, hnn⟩ := neuron_of_sameWiring w.symm h0
    have hin : n0.inputs_.map Input.wiring = n.inputs_.map Input.wiring := by
      have e := congrArg Neuron.inputs_ hnn
      simpa [Neuron.wiring] using e
    have hself2 : ∃ i ∈ n.inputs_, i.neuron = r := by
      obtain ⟨i, hi, his⟩ := hself
      have hmem : i.wiring ∈ n.inputs_.map Input.wiring := by
        rw [← hin]
        exact List.mem_map_of_mem _ hi
      obtain ⟨j, hj, hji⟩ := List.mem_map.mp hmem
      refine ⟨j, hj, ?_⟩
      have e := congrArg Input.neuron hji
      have e2 : j.neuron = i.neuron := by simpa [Input.wiring] using e
      rw [e2, his]
    have hs := sumInputs_self_edge (GetOutput sensors fuel) r g0 (fun g x w => ih g x w)
      (GetOutput_frame sensors fuel) n.inputs_ hself2 0 (n.offset_ + x) g w
    simp only [GetOutput, hn, hs]

/-- C19 (amended): `GetOutput` terminates for every node of every graph without cycles,
and it does not return on a node that has itself as a direct input.  `AddInputs` has no
cycle check: a bilateral rule on a named layer is accepted and adds an edge from every
node of that layer, so when the layer is the layer of the node itself the node becomes
its own input. -/
theorem GetOutput_terminates_without_cycles (sensors : SensorOutputs) (g : Store) :
    (∀ rank : NeuronRef → Nat, Ranked g rank → ∀ (r : NeuronRef) (x : ℚ) (fuel : Nat),
        rank r < fuel → (g r).isSome → (GetOutput sensors fuel g r x).isSome) ∧
      (∀ (r : NeuronRef) (n : Neuron), g r = some (Node.neuron n) →
        (∃ i ∈ n.inputs_, i.neuron = r) → ∀ (fuel : Nat) (x : ℚ),
          GetOutput sensors fuel g r x = none) ∧
      (∀ (ext : Externals) (par : Params) (nc : NeuralController) (self : Neuron)
          (pn : PropNode) (layer : String) (nodes : List Neuron),
        connection_dict_parse
            (pn.getD "connect" (if pn.has_key "source" then "source" else "none"))
          = Except.ok connection_t.bilateral →
        NeuralController.FixLayerName ext (pn.getD "input_layer" "0") = layer →
        layer ≠ "0" → layer.isEmpty = false → nc.InterLayer layer = Except.ok nodes →
        ∃ self1, AddInputs ext self pn par nc = Except.ok self1 ∧
          ∀ idx, idx < nodes.length → ∃ i ∈ self1.inputs_, i.neuron = NeuronRef.inter layer idx) := by
  refine ⟨?_, ?_, ?_⟩
  · intro rank hg r x fuel hfuel hr
    exact GetOutput_returns sensors rank fuel g hg r x hfuel hr
  · intro r n hr hself fuel x
    exact GetOutput_self_edge sensors g r n hr hself fuel g x (SameWiring.refl g)
  · intro ext par nc self pn layer nodes hconnect hlayer hne hempty hnodes
    have hk : (connection_t.bilateral == connection_t.none) = false := by decide
    have hb : (layer == "0") = false := by simpa using hne
    refine ⟨{ self with inputs_ := self.inputs_ ++ bilateralEdges ext par pn layer (self.GetSide == Side.RightSide) nodes 0 }, ?_, ?_⟩
    · simp only [AddInputs, hconnect, hk, Bool.false_eq_true, if_false, hlayer, hb, hempty,
        Bool.not_false, if_true, NeuralController.GetLayerSize, hnodes, Except.map,
        List.take_length]
      exact AddInputs_interLoop_bilateral ext par pn layer _ nodes 0 self
    · intro idx hidx
      have hmem : NeuronRef.inter layer idx ∈
          (bilateralEdges ext par pn layer (self.GetSide == Side.RightSide) nodes 0).map
            Input.neuron := by
        rw [bilateralEdges_neurons]
        apply List.mem_map.mpr
        exact ⟨idx, by simp [List.mem_range']; omega, rfl⟩
      obtain ⟨i, hi, hin⟩ := List.mem_map.mp hmem
      exact ⟨i, List.mem_append_right _ hi, hin⟩

/-- C19 (amended) on the example store, whose motor node has rank 1, and on the bilateral
declaration of the example layer "N1" on itself. -/
theorem GetOutput_terminates_without_cycles_witness :
    Ranked (exampleStore 0) exampleRank ∧
      (GetOutput exampleSensors 2 (exampleStore 0) (NeuronRef.motor 0) 1).isSome ∧
      ∃ self1, AddInputs exampleExternals (exampleInter 0 Side.LeftSide) exampleSelfLayer
          exampleParams exampleController = Except.ok self1 ∧
        ∀ idx, idx < [exampleInter 0 Side.LeftSide, exampleInter 1 Side.RightSide].length →
          ∃ i ∈ self1.inputs_, i.neuron = NeuronRef.inter "N1" idx :=
  ⟨exampleStore_ranked 0,
   (GetOutput_terminates_without_cycles exampleSensors (exampleStore 0)).1 exampleRank
     (exampleStore_ranked 0) (NeuronRef.motor 0) 1 2 (by decide) rfl,
   (GetOutput_terminates_without_cycles exampleSensors (exampleStore 0)).2.2 exampleExternals
     exampleParams exampleController (exampleInter 0 Side.LeftSide) exampleSelfLayer "N1"
     [exampleInter 0 Side.LeftSide, exampleInter 1 Side.RightSide] rfl (by decide) (by decide)
     (by decide) rfl⟩

/-- C19 fails: the node at position 0 of the example layer "N1" accepts a bilateral
declaration on its own layer, which gives it an input edge from itself; with the
resolved node in place, `GetOutput` on it does not return for any depth bound. -/
theorem self_layer_counterexample :
    exampleController.store (NeuronRef.inter "N1" 0)
        = some (Node.neuron (exampleInter 0 Side.LeftSide)) ∧
      AddInputs exampleExternals (exampleInter 0 Side.LeftSide) exampleSelfLayer exampleParams
          exampleController = Except.ok exampleCoupled ∧
      exampleCoupled.inputs_.map Input.neuron
        = [NeuronRef.inter "N1" 0, NeuronRef.inter "N1" 1] ∧
      exampleCoupledController.store (NeuronRef.inter "N1" 0)
        = some (Node.neuron exampleCoupled) ∧
      ∀ (fuel : Nat) (x : ℚ),
        GetOutput exampleSensors fuel exampleCoupledController.store (NeuronRef.inter "N1" 0) x
          = none := by
  refine ⟨rfl, rfl, rfl, rfl, ?_⟩
  intro fuel x
  exact GetOutput_self_edge exampleSensors exampleCoupledController.store
    (NeuronRef.inter "N1" 0) exampleCoupled rfl
    ⟨{ neuron := NeuronRef.inter "N1" 0, gain := 1, offset := 0, contribution := 0 },
      by simp [exampleCoupled, Neuron.AddInput, exampleInter], rfl⟩
    fuel _ x (SameWiring.refl _)

/-! ## Pattern node -/

theorem fmod_add_period {K : Type} [LinearOrderedField K] [FloorRing K] (x p : K)
    (hx : 0 ≤ x) (hp : 0 < p) : fmod (x + p) p = fmod x p := by
  have h1 : 0 ≤ x / p := div_nonneg hx hp.le
  have h2 : (x + p) / p = x / p + 1 := by
    field_simp
  have h3 : 0 ≤ (x + p) / p := by
    rw [h2]
    linarith
  unfold fmod
  rw [if_pos h1, if_pos h3, h2, Int.floor_add_one]
  push_cast
  ring

/-- C20: `PatternNeuron::GetOutput` is periodic in simulation time: for every
period > 0, origin t0, width sigma and every time t with t - t0 + period >= 0, the
output at time t + period equals the output at time t, over every ordered field with a
floor function (in particular the reals) and for every function standing for `exp`. -/
theorem PatternNeuron_periodic {K : Type} [LinearOrderedField K] [FloorRing K] (exp : K → K)
    (self : PatternNeuron K) (t : K) (hperiod : 0 < self.period_)
    (ht : 0 ≤ t - self.t0_ + self.period_) :
    PatternNeuron.GetOutput exp self (t + self.period_) = PatternNeuron.GetOutput exp self t := by
  unfold PatternNeuron.GetOutput
  have e : t + self.period_ - self.t0_ + self.period_
      = (t - self.t0_ + self.period_) + self.period_ := by ring
  rw [e, fmod_add_period _ _ ht hperiod]

/-- C20 for the period 1, origin 0 and width 1/2 at time 1/4, with the identity in the
place of `exp`. -/
theorem PatternNeuron_periodic_witness :
    (0 : ℚ) < examplePattern.period_ ∧
      (0 : ℚ) ≤ 1 / 4 - examplePattern.t0_ + examplePattern.period_ ∧
      PatternNeuron.GetOutput (fun x : ℚ => x) examplePattern (1 / 4 + examplePattern.period_)
        = PatternNeuron.GetOutput (fun x : ℚ => x) examplePattern (1 / 4) :=
  ⟨by norm_num [examplePattern], by norm_num [examplePattern],
   PatternNeuron_periodic (fun x : ℚ => x) examplePattern (1 / 4)
     (by norm_num [examplePattern]) (by norm_num [examplePattern])⟩

/-! ## Pattern node: width and range -/

theorem PatternNeuron_GetOutput_eq {K : Type} [LinearOrderedField K] [FloorRing K]
    (exp : K → K) (self : PatternNeuron K) (time : K) (hperiod : self.period_ ≠ 0)
    (hsigma : self.sigma_ ≠ 0) :
    PatternNeuron.GetOutput exp self time
      = some (exp (-((fmod (time - self.t0_ + self.period_) self.period_
            - (1 / 2) * self.period_) *
          (fmod (time - self.t0_ + self.period_) self.period_ - (1 / 2) * self.period_)))) := by
  unfold PatternNeuron.GetOutput
  rw [if_neg (by simp [hperiod, hsigma])]
  simp only [div_mul_cancel_right₀, div_mul_cancel₀ _ hsigma]

theorem fmod_bounds {K : Type} [LinearOrderedField K] [FloorRing K] (x p : K)
    (hx : 0 ≤ x) (hp : 0 < p) : 0 ≤ fmod x p ∧ fmod x p < p := by
  have h1 : 0 ≤ x / p := div_nonneg hx hp.le
  unfold fmod
  rw [if_pos h1]
  have hle : (Int.floor (x / p) : K) ≤ x / p := Int.floor_le _
  have hlt : x / p < Int.floor (x / p) + 1 := Int.lt_floor_add_one _
  have hxp : x = p * (x / p) := by field_simp
  constructor
  · have : p * (Int.floor (x / p) : K) ≤ p * (x / p) := mul_le_mul_of_nonneg_left hle hp.le
    linarith
  · have : p * (x / p) < p * ((Int.floor (x / p) : K) + 1) := mul_lt_mul_of_pos_left hlt hp
    linarith

theorem fmod_eq_iff {K : Type} [LinearOrderedField K] [FloorRing K] (x p r : K)
    (hx : 0 ≤ x) (hp : 0 < p) (hr0 : 0 ≤ r) (hrp : r < p) :
    fmod x p = r ↔ ∃ k : ℤ, x = r + k * p := by
  have h1 : 0 ≤ x / p := div_nonneg hx hp.le
  constructor
  · intro h
    refine ⟨Int.floor (x / p), ?_⟩
    unfold fmod at h
    rw [if_pos h1] at h
    linarith
  · rintro ⟨k, hk⟩
    have hdiv : x / p = r / p + k := by
      rw [hk]
      field_simp
    have hfl : Int.floor (x / p) = k := by
      rw [hdiv, Int.floor_add_int]
      have : Int.floor (r / p) = 0 := by
        rw [Int.floor_eq_iff]
        constructor
        · simpa using div_nonneg hr0 hp.le
        · simpa using (div_lt_one hp).mpr hrp
      rw [this, zero_add]
    unfold fmod
    rw [if_pos h1, hfl, hk]
    ring

/-- C21 is violated by the code: in `exp( -( t * t ) / sigma_ * sigma_ )` the width
cancels, so two pattern nodes that differ only in `sigma_` (1/2 and 2, period 1, origin
0) give the same output at time 1/4, where the wrapped time is -1/4; in general the
output does not depend on a non-zero `sigma_`. -/
theorem sigma_has_no_effect :
    PatternNeuron.GetOutput Real.exp
        ({ t0_ := 0, sigma_ := 1 / 2, period_ := 1 } : PatternNeuron ℝ) (1 / 4)
      = PatternNeuron.GetOutput Real.exp
        ({ t0_ := 0, sigma_ := 2, period_ := 1 } : PatternNeuron ℝ) (1 / 4) ∧
    PatternNeuron.GetOutput Real.exp
        ({ t0_ := 0, sigma_ := 2, period_ := 1 } : PatternNeuron ℝ) (1 / 4)
      = some (Real.exp (-(1 / 16))) ∧
    fmod ((1 / 4 : ℝ) - 0 + 1) 1 - (1 / 2) * 1 = -(1 / 4) ∧
    (∀ (exp : ℝ → ℝ) (self : PatternNeuron ℝ) (s time : ℝ), self.sigma_ ≠ 0 → s ≠ 0 →
      PatternNeuron.GetOutput exp { self with sigma_ := s } time
        = PatternNeuron.GetOutput exp self time) ∧
    (∀ (exp : ℚ → ℚ) (self : PatternNeuron ℚ) (s time : ℚ), self.sigma_ ≠ 0 → s ≠ 0 →
      PatternNeuron.GetOutput exp { self with sigma_ := s } time
        = PatternNeuron.GetOutput exp self time) := by
  have hf : fmod ((1 / 4 : ℝ) - 0 + 1) 1 = 1 / 4 := by
    rw [fmod_eq_iff _ _ _ (by norm_num) (by norm_num) (by norm_num) (by norm_num)]
    exact ⟨1, by norm_num⟩
  have hgen : ∀ (K : Type) [LinearOrderedField K] [FloorRing K] (exp : K → K)
      (self : PatternNeuron K) (s time : K), self.sigma_ ≠ 0 → s ≠ 0 →
      PatternNeuron.GetOutput exp { self with sigma_ := s } time
        = PatternNeuron.GetOutput exp self time := by
    intro K _ _ exp self s time hs1 hs2
    by_cases hp : self.period_ = 0
    · simp [PatternNeuron.GetOutput, hp]
    · rw [PatternNeuron_GetOutput_eq exp self time hp hs1,
        PatternNeuron_GetOutput_eq exp { self with sigma_ := s } time hp hs2]
  refine ⟨?_, ?_, ?_, hgen ℝ, hgen ℚ⟩
  · exact (hgen ℝ Real.exp { t0_ := 0, sigma_ := 2, period_ := 1 } (1 / 2) (1 / 4)
      (by norm_num) (by norm_num))
  · rw [PatternNeuron_GetOutput_eq _ _ _ (by norm_num) (by norm_num)]
    simp only [hf]
    norm_num
  · rw [hf]
    norm_num

/-- C27 fails for the width 0: the quotient by `sigma_` has no value, so at time 1/2
(half a period after the origin 0 of a node with period 1) there is no output, where the
claim says the output is 1. -/
theorem zero_width_counterexample :
    (0 : ℝ) < ({ t0_ := 0, sigma_ := 0, period_ := 1 } : PatternNeuron ℝ).period_ ∧
      (1 / 2 : ℝ) - ({ t0_ := 0, sigma_ := 0, period_ := 1 } : PatternNeuron ℝ).t0_
        = ({ t0_ := 0, sigma_ := 0, period_ := 1 } : PatternNeuron ℝ).period_ / 2 ∧
      PatternNeuron.GetOutput Real.exp
        ({ t0_ := 0, sigma_ := 0, period_ := 1 } : PatternNeuron ℝ) (1 / 2) = none := by
  refine ⟨by norm_num, by norm_num, ?_⟩
  simp [PatternNeuron.GetOutput]

/-- C27 (amended): for period > 0, width sigma_ != 0 and every time t with
t - t0 + period >= 0, `PatternNeuron::GetOutput` over the reals lies in the interval
(0, 1], it equals 1 exactly when t - t0 is congruent to period/2 modulo period, and the
output at t = t0 is a lower bound of the output at every such time. -/
theorem PatternNeuron_range_and_peak (self : PatternNeuron ℝ) (t : ℝ)
    (hperiod : 0 < self.period_) (hsigma : self.sigma_ ≠ 0)
    (ht : 0 ≤ t - self.t0_ + self.period_) :
    ∃ v : ℝ, PatternNeuron.GetOutput Real.exp self t = some v ∧ 0 < v ∧ v ≤ 1 ∧
      (v = 1 ↔ ∃ k : ℤ, t - self.t0_ = self.period_ / 2 + k * self.period_) ∧
      ∃ v0 : ℝ, PatternNeuron.GetOutput Real.exp self self.t0_ = some v0 ∧ v0 ≤ v := by
  have hp0 : self.period_ ≠ 0 := ne_of_gt hperiod
  have hb := fmod_bounds (t - self.t0_ + self.period_) self.period_ ht hperiod
  have hf0 : fmod (self.t0_ - self.t0_ + self.period_) self.period_ = 0 := by
    rw [fmod_eq_iff _ _ _ (by linarith) hperiod le_rfl hperiod]
    exact ⟨1, by simp⟩
  refine ⟨_, PatternNeuron_GetOutput_eq Real.exp self t hp0 hsigma, Real.exp_pos _, ?_, ?_,
    _, PatternNeuron_GetOutput_eq Real.exp self self.t0_ hp0 hsigma, ?_⟩
  · rw [← Real.exp_zero]
    apply Real.exp_le_exp.mpr
    nlinarith [mul_self_nonneg (fmod (t - self.t0_ + self.period_) self.period_
      - (1 / 2) * self.period_)]
  · rw [Real.exp_eq_one_iff, neg_eq_zero, mul_self_eq_zero, sub_eq_zero,
      fmod_eq_iff _ _ _ ht hperiod (by linarith) (by linarith)]
    constructor
    · rintro ⟨k, hk⟩
      refine ⟨k - 1, ?_⟩
      push_cast
      linarith
    · rintro ⟨k, hk⟩
      refine ⟨k + 1, ?_⟩
      push_cast
      linarith
  · apply Real.exp_le_exp.mpr
    rw [hf0]
    nlinarith [hb.1, hb.2]

/-- C27 (amended) for the period 1, origin 0 and width 1/2 at time 1/4. -/
theorem PatternNeuron_range_and_peak_witness :
    (0 : ℝ) < ({ t0_ := 0, sigma_ := 1 / 2, period_ := 1 } : PatternNeuron ℝ).period_ ∧
      ({ t0_ := 0, sigma_ := 1 / 2, period_ := 1 } : PatternNeuron ℝ).sigma_ ≠ 0 ∧
      ∃ v : ℝ, PatternNeuron.GetOutput Real.exp
          ({ t0_ := 0, sigma_ := 1 / 2, period_ := 1 } : PatternNeuron ℝ) (1 / 4) = some v ∧
        0 < v ∧ v ≤ 1 :=
  ⟨by norm_num, by norm_num,
   (PatternNeuron_range_and_peak ({ t0_ := 0, sigma_ := 1 / 2, period_ := 1 } : PatternNeuron ℝ)
      (1 / 4) (by norm_num) (by norm_num) (by norm_num)).imp
      (fun _ h => ⟨h.1, h.2.1, h.2.2.1⟩)⟩

/-! ## Initial parameter values -/

theorem GetRestrained_mem (v lo hi : ℚ) (h : lo ≤ hi) :
    lo ≤ GetRestrained v lo hi ∧ GetRestrained v lo hi ≤ hi := by
  unfold GetRestrained
  by_cases h1 : v < lo
  · simp [h1, h]
  · by_cases h2 : v > hi
    · simp [h1, h2, h]
    · simp only [h1, h2, if_false]
      exact ⟨not_lt.mp h1, not_lt.mp h2⟩

/-- C23: `GetInitialValue` returns init_mean without a random draw for a fixed
parameter; for a free parameter with init_mean != 0 or init_std != 0 it returns the
Gaussian draw restrained to the range from min to max, which lies in that range when
min <= max; for a free parameter with init_mean = 0 and init_std = 0 it returns the
uniform draw between init_min and init_max. -/
theorem GetInitialValue_cases {ρ : Type} (rng : Rng ρ) (self : ParamInfo) (s : ρ) :
    (self.is_free = false → ParamInfo.GetInitialValue rng self s = (self.init_mean, s)) ∧
      (self.is_free = true → (self.init_mean ≠ 0 ∨ self.init_std ≠ 0) →
        ParamInfo.GetInitialValue rng self s
            = (GetRestrained (rng.gauss self.init_mean (self.init_std * self.init_std) s).1
                self.min self.max,
               (rng.gauss self.init_mean (self.init_std * self.init_std) s).2) ∧
          (self.min ≤ self.max →
            self.min ≤ (ParamInfo.GetInitialValue rng self s).1 ∧
            (ParamInfo.GetInitialValue rng self s).1 ≤ self.max)) ∧
      (self.is_free = true → self.init_mean = 0 → self.init_std = 0 →
        ParamInfo.GetInitialValue rng self s = rng.uni self.init_min self.init_max s) := by
  refine ⟨?_, ?_, ?_⟩
  · intro h
    simp [ParamInfo.GetInitialValue, h]
  · intro h hne
    have hc : (self.init_mean != 0 || self.init_std != 0) = true := by
      rcases hne with h1 | h1 <;> simp [h1]
    have he : ParamInfo.GetInitialValue rng self s
        = (GetRestrained (rng.gauss self.init_mean (self.init_std * self.init_std) s).1
            self.min self.max,
           (rng.gauss self.init_mean (self.init_std * self.init_std) s).2) := by
      simp only [ParamInfo.GetInitialValue, h, hc, if_true, Square]
    refine ⟨he, ?_⟩
    intro hm
    rw [he]
    exact GetRestrained_mem _ _ _ hm
  · intro h h1 h2
    simp [ParamInfo.GetInitialValue, h, h1, h2]

/-- C23 on the example parameter (free, mean 1, deviation 1/2, range from 0 to 5) with a
random source whose Gaussian draw yields 11: the value is restrained to 5 and one draw
is made; the fixed copy of the parameter yields its mean and makes no draw. -/
theorem GetInitialValue_cases_witness :
    exampleParamInfo.is_free = true ∧
      (exampleParamInfo.init_mean ≠ 0 ∨ exampleParamInfo.init_std ≠ 0) ∧
      exampleParamInfo.min ≤ exampleParamInfo.max ∧
      (exampleParamInfo.min ≤ (ParamInfo.GetInitialValue exampleRng exampleParamInfo 0).1 ∧
        (ParamInfo.GetInitialValue exampleRng exampleParamInfo 0).1 ≤ exampleParamInfo.max) ∧
      ParamInfo.GetInitialValue exampleRng exampleParamInfo 0 = (5, 1) ∧
      ParamInfo.GetInitialValue exampleRng { exampleParamInfo with is_free := false } 0
        = (1, 0) :=
  ⟨rfl, Or.inl (by norm_num [exampleParamInfo]), by norm_num [exampleParamInfo],
   ((GetInitialValue_cases exampleRng exampleParamInfo 0).2.1 rfl
      (Or.inl (by norm_num [exampleParamInfo]))).2 (by norm_num [exampleParamInfo]),
   by norm_num [ParamInfo.GetInitialValue, exampleParamInfo, exampleRng, GetRestrained, Square],
   by simp [ParamInfo.GetInitialValue, exampleParamInfo]⟩

/-! ## Synergetic input -/

theorem foldl_nat_sum {α : Type} (f : α → Nat) (l : List α) (c : Nat) :
    l.foldl (fun c a => c + f a) c = c + (l.map f).sum := by
  induction l generalizing c with
  | nil => simp
  | cons a l ih =>
    simp only [List.foldl_cons, List.map_cons, List.sum_cons]
    rw [ih]
    omega

theorem common_joints_pos_iff (mjoints sjoints : List Joint) :
    0 < common_joints mjoints sjoints ↔ ∃ j, j ∈ mjoints ∧ j ∈ sjoints := by
  unfold common_joints
  have hinner : ∀ (c : Nat) (mj : Joint),
      sjoints.foldl (fun c sj => c + (if mj == sj then 1 else 0)) c
        = c + (sjoints.map (fun sj => if mj == sj then 1 else 0)).sum := by
    intro c mj
    exact foldl_nat_sum _ sjoints c
  simp only [hinner]
  rw [foldl_nat_sum]
  simp only [zero_add]
  constructor
  · intro h
    by_contra hcon
    have hno : ∀ mj ∈ mjoints, ∀ sj ∈ sjoints, mj ≠ sj := by
      intro mj hmj sj hsj e
      exact hcon ⟨mj, hmj, e ▸ hsj⟩
    have hz : (mjoints.map (fun mj =>
        (sjoints.map (fun sj => if mj == sj then 1 else 0)).sum)).sum = 0 := by
      apply List.sum_eq_zero
      intro x hx
      obtain ⟨mj, hmj, rfl⟩ := List.mem_map.mp hx
      apply List.sum_eq_zero
      intro y hy
      obtain ⟨sj, hsj, rfl⟩ := List.mem_map.mp hy
      simp [hno mj hmj sj hsj]
    omega
  · rintro ⟨j, hm, hs⟩
    have h1 : 1 ≤ (sjoints.map (fun sj => if j == sj then 1 else 0)).sum := by
      have := List.single_le_sum (l := sjoints.map (fun sj => if j == sj then 1 else 0))
        (fun _ _ => Nat.zero_le _) 1 (List.mem_map.mpr ⟨j, hs, by simp⟩)
      exact this
    have h2 := List.single_le_sum
      (l := mjoints.map (fun mj => (sjoints.map (fun sj => if mj == sj then 1 else 0)).sum))
      (fun _ _ => Nat.zero_le _) _ (List.mem_map.mpr ⟨j, hm, rfl⟩)
    omega

theorem foldl_fst {α β γ : Type} (f : β × γ → α → β × γ) (g : β → α → β)
    (h : ∀ acc a, (f acc a).1 = g acc.1 a) :
    ∀ (l : List α) (acc : β × γ), (l.foldl f acc).1 = l.foldl g acc.1 := by
  intro l
  induction l with
  | nil => intro acc; rfl
  | cons a l ih =>
    intro acc
    simp only [List.foldl_cons]
    rw [ih, h]

theorem synergeticGainTraced_fst (an : Anatomy) (par : Params) (pn : PropNode)
    (mpvec spvec : List MuscleParam) (type_ : String) :
    (synergeticGainTraced an par pn mpvec spvec type_).1
      = synergeticGain an par pn mpvec spvec type_ := by
  unfold synergeticGainTraced synergeticGain
  apply foldl_fst
  intro acc mp
  apply foldl_fst
  intro acc2 sp
  cases dofsClash an mp sp <;> rfl

/-- C24: for every target muscle and sensor muscle, `AddSynergeticInput` adds exactly
one input edge for the sensor if the joint lists of the two muscles have at least one
joint in common, and adds no edge and looks up no parameter if they have none. -/
theorem synergetic_shared_joint (ext : Externals) (an : Anatomy) (self : Neuron)
    (sensorRef : NeuronRef) (sensor : SensorNeuron) (pn : PropNode) (par : Params)
    (m s : Muscle) (hm : self.muscle_ = some m) (hs : sensor.muscle_ = some s) :
    ((∃ j, j ∈ an.GetJoints m ∧ j ∈ an.GetJoints s) →
        ∃ (gain offset : ℚ) (lookups : List Lookup),
          AddSynergeticInputTraced ext an self sensorRef sensor pn par
            = Except.ok
              ({ self with inputs_ := self.inputs_ ++ [{ neuron := sensorRef, gain := gain, offset := offset, contribution := 0 }] },
               lookups)) ∧
      ((¬ ∃ j, j ∈ an.GetJoints m ∧ j ∈ an.GetJoints s) →
        AddSynergeticInputTraced ext an self sensorRef sensor pn par = Except.ok (self, [])) ∧
      (AddSynergeticInputTraced ext an self sensorRef sensor pn par).map Prod.fst
        = AddSynergeticInput ext an self sensorRef sensor pn par := by
  refine ⟨?_, ?_, ?_⟩
  · intro h
    have hc : common_joints (an.GetJoints m) (an.GetJoints s) > 0 :=
      (common_joints_pos_iff _ _).mpr h
    refine ⟨(synergeticGainTraced an par pn (ext.GetMuscleParams (some m) false)
        (ext.GetMuscleParams (some s) true) sensor.type_).1.1,
      (synergeticGainTraced an par pn (ext.GetMuscleParams (some m) false)
        (ext.GetMuscleParams (some s) true) sensor.type_).1.2,
      (synergeticGainTraced an par pn (ext.GetMuscleParams (some m) false)
        (ext.GetMuscleParams (some s) true) sensor.type_).2, ?_⟩
    simp only [AddSynergeticInputTraced, hm, hs, hc, if_true, Neuron.AddInput]
  · intro h
    have hc : ¬ common_joints (an.GetJoints m) (an.GetJoints s) > 0 :=
      fun hpos => h ((common_joints_pos_iff _ _).mp hpos)
    simp only [AddSynergeticInputTraced, hm, hs, hc, if_false]
  · simp only [AddSynergeticInputTraced, AddSynergeticInput, hm, hs]
    by_cases hc : common_joints (an.GetJoints m) (an.GetJoints s) > 0
    · simp only [hc, if_true, Except.map]
      rw [synergeticGainTraced_fst]
    · simp only [hc, if_false, Except.map]

/-- C24 on the example target and the force sensor of its muscle, which share joint 0,
and on an anatomy in which the two muscles span the different joints 0 and 1. -/
theorem synergetic_shared_joint_witness :
    exampleTarget.muscle_ = some 0 ∧ exampleSensorLeft.muscle_ = some 1 ∧
      (∃ j, j ∈ exampleAnatomy.GetJoints 0 ∧ j ∈ exampleAnatomy.GetJoints 1) ∧
      (∃ (gain offset : ℚ) (lookups : List Lookup),
        AddSynergeticInputTraced exampleExternals exampleAnatomy exampleTarget
            (NeuronRef.sensor 0) exampleSensorLeft exampleMonosynaptic exampleParamsBound
          = Except.ok
            ({ exampleTarget with inputs_ := exampleTarget.inputs_ ++ [{ neuron := NeuronRef.sensor 0, gain := gain, offset := offset, contribution := 0 }] },
             lookups)) ∧
      AddSynergeticInputTraced exampleExternals
          { GetJoints := fun k => [k], GetJoint := fun _ => 0 } exampleTarget
          (NeuronRef.sensor 0) exampleSensorLeft exampleMonosynaptic exampleParamsBound
        = Except.ok (exampleTarget, []) :=
  ⟨rfl, rfl, ⟨0, by simp [exampleAnatomy], by simp [exampleAnatomy]⟩,
   (synergetic_shared_joint exampleExternals exampleAnatomy exampleTarget (NeuronRef.sensor 0)
      exampleSensorLeft exampleMonosynaptic exampleParamsBound 0 1 rfl rfl).1
      ⟨0, by simp [exampleAnatomy], by simp [exampleAnatomy]⟩,
   rfl⟩

/-! ## Conditional reflex at zero velocity -/

/-- C25: with a delayed velocity of exactly zero and a delayed position outside the
admissible range, `ComputeControls` suppresses the reflex when the position is above
the range and does not suppress it when the position is below the range, because
`signbit` classifies the zero velocity as positive. -/
theorem zero_velocity_suppression {σ : Type} (MuscleReflex_ComputeControls : ℚ → σ → σ)
    (range : Range) (dofpos timestamp : ℚ) (s : σ) (hrange : range.min ≤ range.max) :
    signbit 0 = false ∧
      (range.max < dofpos →
        ComputeControls_condition range dofpos 0 = false ∧
        ConditionalMuscleReflex.ComputeControls MuscleReflex_ComputeControls range dofpos 0
          timestamp s = s) ∧
      (dofpos < range.min →
        ComputeControls_condition range dofpos 0 = true ∧
        ConditionalMuscleReflex.ComputeControls MuscleReflex_ComputeControls range dofpos 0
          timestamp s = MuscleReflex_ComputeControls timestamp s) := by
  refine ⟨by simp [signbit], ?_, ?_⟩
  · intro h
    have hc : ComputeControls_condition range dofpos 0 = false := by
      rw [ComputeControls_condition_eq_false_iff]
      refine ⟨Or.inr h, ?_⟩
      have h1 : ¬ dofpos < range.min := by linarith
      have h2 : ¬ dofpos - range.max < 0 := by linarith
      simp [Range.GetRangeViolation, signbit, h1, h, h2]
    exact ⟨hc, by simp [ConditionalMuscleReflex.ComputeControls, hc]⟩
  · intro h
    have hc : ComputeControls_condition range dofpos 0 = true := by
      rw [← Bool.not_eq_false, ComputeControls_condition_eq_false_iff]
      rintro ⟨_, hsign⟩
      have h2 : dofpos - range.min < 0 := by linarith
      simp [Range.GetRangeViolation, signbit, h, h2] at hsign
    exact ⟨hc, by simp [ConditionalMuscleReflex.ComputeControls, hc]⟩

/-- C25 for the range from -5 to 5 degrees: position 8 is suppressed, position -8 is
not, both at velocity 0. -/
theorem zero_velocity_suppression_witness :
    ({ min := -5, max := 5 } : Range).min ≤ ({ min := -5, max := 5 } : Range).max ∧
      ConditionalMuscleReflex.ComputeControls (fun _ (n : Nat) => n + 1)
        { min := -5, max := 5 } 8 0 0 0 = 0 ∧
      ConditionalMuscleReflex.ComputeControls (fun _ (n : Nat) => n + 1)
        { min := -5, max := 5 } (-8) 0 0 0 = 1 :=
  ⟨by norm_num,
   ((zero_velocity_suppression (fun _ (n : Nat) => n + 1) { min := -5, max := 5 } 8 0 0
      (by norm_num)).2.1 (by norm_num)).2,
   ((zero_velocity_suppression (fun _ (n : Nat) => n + 1) { min := -5, max := 5 } (-8) 0 0
      (by norm_num)).2.2 (by norm_num)).2⟩

/-! ## Kinds on a named layer -/

theorem AddInputs_interLoop_named (ext : Externals) (par : Params) (pn : PropNode)
    (connect : connection_t) (layer : String) (right_side : Bool)
    (hkind : connect = connection_t.monosynaptic ∨ connect = connection_t.bilateral ∨
      connect = connection_t.ipsilateral ∨ connect = connection_t.contralateral) :
    ∀ (nodes : List Neuron) (idx : Nat) (self : Neuron),
      ∃ self1, AddInputs_interLoop ext par pn connect layer right_side nodes idx self
        = Except.ok self1 := by
  intro nodes
  induction nodes with
  | nil => intro idx self; exact ⟨self, rfl⟩
  | cons c rest ih =>
    intro idx self
    have hstep : ∃ self1, AddInputs_inter ext par pn connect layer right_side self idx c
        = Except.ok self1 := by
      rcases hkind with h | h | h | h <;> subst h <;> simp only [AddInputs_inter]
      · by_cases hc : (c.index_ == self.index_) = true
        · rw [if_pos hc]; exact ⟨_, rfl⟩
        · rw [if_neg hc]; exact ⟨_, rfl⟩
      · exact ⟨_, rfl⟩
      · by_cases hc : (c.GetSide == self.GetSide || c.GetSide == Side.NoSide) = true
        · rw [if_pos hc]; exact ⟨_, rfl⟩
        · rw [if_neg hc]; exact ⟨_, rfl⟩
      · by_cases hc : (c.GetSide != self.GetSide || c.GetSide == Side.NoSide) = true
        · rw [if_pos hc]; exact ⟨_, rfl⟩
        · rw [if_neg hc]; exact ⟨_, rfl⟩
    obtain ⟨self1, h1⟩ := hstep
    simp only [AddInputs_interLoop, h1]
    exact ih (idx + 1) self1

theorem AddInputs_interLoop_other (ext : Externals) (par : Params) (pn : PropNode)
    (connect : connection_t) (layer : String) (right_side : Bool)
    (hkind : ¬ (connect = connection_t.monosynaptic ∨ connect = connection_t.bilateral ∨
      connect = connection_t.ipsilateral ∨ connect = connection_t.contralateral))
    (c : Neuron) (rest : List Neuron) (idx : Nat) (self : Neuron) :
    AddInputs_interLoop ext par pn connect layer right_side (c :: rest) idx self
      = Except.error ("Invalid connection type: " ++ connection_dict_name connect) := by
  cases connect <;> first
    | exact absurd (Or.inl rfl) hkind
    | exact absurd (Or.inr (Or.inl rfl)) hkind
    | exact absurd (Or.inr (Or.inr (Or.inl rfl))) hkind
    | exact absurd (Or.inr (Or.inr (Or.inr rfl))) hkind
    | rfl

/-- C26: for a non-sensor input layer with at least one node, `AddInputs` succeeds
exactly for the kinds monosynaptic, bilateral, ipsilateral and contralateral; for each
of the kinds antagonistic, agonistic, synergetic, source and none it raises "Invalid
connection type" on the first candidate; for an empty non-sensor layer it raises for no
kind. -/
theorem named_layer_kinds (ext : Externals) (par : Params) (nc : NeuralController)
    (self : Neuron) (pn : PropNode) (connect : connection_t) (layer : String)
    (nodes : List Neuron)
    (hconnect : connection_dict_parse
      (pn.getD "connect" (if pn.has_key "source" then "source" else "none"))
        = Except.ok connect)
    (hlayer : NeuralController.FixLayerName ext
      (pn.getD "input_layer" (if connect == connection_t.none then "" else "0")) = layer)
    (hsensor : layer ≠ "0") (hempty : layer.isEmpty = false)
    (hnodes : nc.InterLayer layer = Except.ok nodes) :
    (nodes = [] → AddInputs ext self pn par nc = Except.ok self) ∧
      (nodes ≠ [] →
        ((connect = connection_t.monosynaptic ∨ connect = connection_t.bilateral ∨
            connect = connection_t.ipsilateral ∨ connect = connection_t.contralateral) ↔
          ∃ self1, AddInputs ext self pn par nc = Except.ok self1) ∧
        ((connect = connection_t.antagonistic ∨ connect = connection_t.agonistic ∨
            connect = connection_t.synergetic ∨ connect = connection_t.source ∨
            connect = connection_t.none) →
          AddInputs ext self pn par nc
            = Except.error ("Invalid connection type: " ++ connection_dict_name connect))) := by
  have hb : (layer == "0") = false := by simpa using hsensor
  have hadd : AddInputs ext self pn par nc
      = AddInputs_interLoop ext par pn connect layer (self.GetSide == Side.RightSide) nodes 0
          self := by
    simp only [AddInputs, hconnect, hlayer, hb, Bool.false_eq_true, if_false, hempty,
      Bool.not_false, if_true, NeuralController.GetLayerSize, hnodes, Except.map,
      List.take_length]
  constructor
  · intro hnil
    rw [hadd, hnil]
    rfl
  · intro hcons
    obtain ⟨c, rest, hcr⟩ := List.exists_cons_of_ne_nil hcons
    constructor
    · constructor
      · intro hkind
        rw [hadd]
        exact AddInputs_interLoop_named ext par pn connect layer _ hkind nodes 0 self
      · rintro ⟨self1, h1⟩
        by_contra hkind
        rw [hadd, hcr, AddInputs_interLoop_other ext par pn connect layer _ hkind] at h1
        simp at h1
    · intro hkind
      rw [hadd, hcr]
      apply AddInputs_interLoop_other
      rintro (h | h | h | h) <;> rcases hkind with k | k | k | k | k <;> rw [h] at k <;>
        exact connection_t.noConfusion k

/-- C26 on the layer "N1" of the example controller, which has two nodes: a synergetic
declaration raises an error. -/
theorem named_layer_kinds_witness :
    connection_dict_parse
        (exampleSynergeticNamed.getD "connect"
          (if exampleSynergeticNamed.has_key "source" then "source" else "none"))
        = Except.ok connection_t.synergetic ∧
      NeuralController.FixLayerName exampleExternals
        (exampleSynergeticNamed.getD "input_layer"
          (if connection_t.synergetic == connection_t.none then "" else "0")) = "N1" ∧
      "N1" ≠ "0" ∧ "N1".isEmpty = false ∧
      exampleController.InterLayer "N1"
        = Except.ok [exampleInter 0 Side.LeftSide, exampleInter 1 Side.RightSide] ∧
      AddInputs exampleExternals exampleTarget exampleSynergeticNamed exampleParams
          exampleController
        = Except.error ("Invalid connection type: " ++
            connection_dict_name connection_t.synergetic) :=
  ⟨rfl, by decide, by decide, by decide, rfl,
   ((named_layer_kinds exampleExternals exampleParams exampleController exampleTarget
      exampleSynergeticNamed connection_t.synergetic "N1"
      [exampleInter 0 Side.LeftSide, exampleInter 1 Side.RightSide] rfl (by decide) (by decide)
      (by decide) rfl).2 (by simp)).2 (Or.inr (Or.inr (Or.inl rfl)))⟩

/-! ## Defaults of a declaration -/

theorem foldl_add_sum {α : Type} (f : α → ℚ) (l : List α) (c : ℚ) :
    l.foldl (fun acc a => acc + f a) c = c + (l.map f).sum := by
  induction l generalizing c with
  | nil => simp
  | cons a l ih =>
    simp only [List.foldl_cons, List.map_cons, List.sum_cons]
    rw [ih]
    ring

/-- C28: when "connect" is absent the kind is source if the declaration has a "source"
key and none otherwise; when "input_layer" is absent the input layer is the sensor
layer "0" for every kind except none, for which it is empty; with the empty input layer
no candidate is examined and the only effect is that, when an "offset" key is present,
the correlation-weighted ".C0" offset parameters are added to the offset of the node.
The integer parser is assumed to read "0" and the empty string as no positive
number. -/
theorem declaration_defaults (ext : Externals) (par : Params) (self : Neuron) (pn : PropNode)
    (hzero : ext.from_str_int "0" ≤ 0) (hnone : ext.from_str_int "" ≤ 0) :
    (pn.find "connect" = none →
        connection_dict_parse
            (pn.getD "connect" (if pn.has_key "source" then "source" else "none"))
          = Except.ok (if pn.has_key "source" then connection_t.source else connection_t.none)) ∧
      (pn.find "input_layer" = none → ∀ connect : connection_t,
        NeuralController.FixLayerName ext
            (pn.getD "input_layer" (if connect == connection_t.none then "" else "0"))
          = (if connect = connection_t.none then "" else "0")) ∧
      (pn.find "input_layer" = none → ∀ connect : connection_t,
        connection_dict_parse
            (pn.getD "connect" (if pn.has_key "source" then "source" else "none"))
          = Except.ok connect →
        connect ≠ connection_t.none → ∀ nc : NeuralController,
          AddInputs ext self pn par nc
            = AddInputs_sensorLoop ext par pn connect (pn.getD "type" "*")
                (ext.GetMuscleParams self.muscle_ false) nc.m_SensorNeurons 0 self) ∧
      (pn.find "input_layer" = none →
        connection_dict_parse
            (pn.getD "connect" (if pn.has_key "source" then "source" else "none"))
          = Except.ok connection_t.none →
        ∀ nc : NeuralController,
          AddInputs ext self pn par nc
            = Except.ok
              { self with offset_ := if pn.has_key "offset" then self.offset_ + ((ext.GetMuscleParams self.muscle_ false).map (fun mp => mp.correlation * par.try_get (mp.name ++ ".C0") pn "offset" 0)).sum else self.offset_ }) := by
  have hfix0 : NeuralController.FixLayerName ext "0" = "0" := by
    simp [NeuralController.FixLayerName, not_lt.mpr hzero]
  have hfixe : NeuralController.FixLayerName ext "" = "" := by
    simp [NeuralController.FixLayerName, not_lt.mpr hnone]
  refine ⟨?_, ?_, ?_, ?_⟩
  · intro h
    simp only [PropNode.getD, h]
    by_cases hs : pn.has_key "source" = true
    · simp only [hs, if_true]; rfl
    · simp only [hs, if_false]; rfl
  · intro h connect
    simp only [PropNode.getD, h]
    by_cases hc : connect = connection_t.none
    · subst hc
      simp [hfixe]
    · have hb : (connect == connection_t.none) = false := by simpa using hc
      simp [hb, hc, hfix0]
  · intro h connect hconnect hne nc
    have hb : (connect == connection_t.none) = false := by simpa using hne
    have hl : NeuralController.FixLayerName ext
        (pn.getD "input_layer" (if (connect == connection_t.none) = true then "" else "0"))
          = "0" := by
      simp only [PropNode.getD, h, hb, Bool.false_eq_true, if_false, hfix0]
    simp only [AddInputs, hconnect, hl, beq_self_eq_true, if_true,
      NeuralController.GetLayerSize, List.take_length]
  · intro h hconnect nc
    have hk : (connection_t.none == connection_t.none) = true := by decide
    have hl : NeuralController.FixLayerName ext
        (pn.getD "input_layer"
          (if (connection_t.none == connection_t.none) = true then "" else "0")) = "" := by
      simp only [PropNode.getD, h, hk, if_true, hfixe]
    have h0 : (("" : String) == "0") = false := by decide
    have he : ("" : String).isEmpty = true := by decide
    simp only [AddInputs, hconnect, hl, h0, Bool.false_eq_true, if_false, he, Bool.not_true]
    by_cases hoff : pn.has_key "offset" = true
    · simp only [hoff, if_true]
      rw [foldl_add_sum]
    · simp only [hoff, Bool.false_eq_true, if_false]

/-- C28 on a declaration that only has an "offset" key: kind none, empty input layer,
and the target is returned with its offset 1/2 unchanged because the example binding
yields the default 0 for the ".C0" parameter. -/
theorem declaration_defaults_witness :
    exampleExternals.from_str_int "0" ≤ 0 ∧ exampleExternals.from_str_int "" ≤ 0 ∧
      exampleOffsetOnly.find "connect" = none ∧ exampleOffsetOnly.find "input_layer" = none ∧
      connection_dict_parse
          (exampleOffsetOnly.getD "connect"
            (if exampleOffsetOnly.has_key "source" then "source" else "none"))
        = Except.ok connection_t.none ∧
      AddInputs exampleExternals exampleTarget exampleOffsetOnly exampleParams exampleController
        = Except.ok
          { exampleTarget with offset_ := if exampleOffsetOnly.has_key "offset" then exampleTarget.offset_ + ((exampleExternals.GetMuscleParams exampleTarget.muscle_ false).map (fun mp => mp.correlation * exampleParams.try_get (mp.name ++ ".C0") exampleOffsetOnly "offset" 0)).sum else exampleTarget.offset_ } :=
  ⟨by decide, by decide, rfl, rfl, rfl,
   (declaration_defaults exampleExternals exampleParams exampleTarget exampleOffsetOnly
      (by decide) (by decide)).2.2.2 rfl rfl exampleController⟩

/-! ## Dictionary and layer names -/

/-- C29: for each of the nine kinds, parsing the name that the dictionary gives for
the kind yields the kind again; the names of distinct kinds are distinct; the legacy
name "protagonistic" parses to agonistic, and agonistic is printed as "agonistic". -/
theorem connection_dict_round_trip :
    declaredKinds.map (fun k => connection_dict_parse (connection_dict_name k))
        = declaredKinds.map Except.ok ∧
      (declaredKinds.map connection_dict_name).Nodup ∧
      connection_dict_parse "protagonistic" = Except.ok connection_t.agonistic ∧
      connection_dict_name connection_t.agonistic = "agonistic" ∧
      (∀ k : connection_t, k ∈ declaredKinds ∨ ∃ raw, k = connection_t.invalid raw) := by
  refine ⟨rfl, by decide, rfl, rfl, ?_⟩
  intro k
  cases k <;> first
    | exact Or.inr ⟨_, rfl⟩
    | exact Or.inl (by simp [declaredKinds])

theorem N_append_ne_zero (s : String) : "N" ++ s ≠ "0" := by
  intro h
  have hd := congrArg String.data h
  simp [String.data_append] at hd

/-- C30: `FixLayerName` maps a string that parses as a positive integer to "N" followed
by that string and returns every other string, "0" included, unchanged; it is
idempotent, and it never maps a string other than "0" to "0".  The integer parser is
assumed to read "0" as 0 and a string that starts with "N" as no positive number. -/
theorem FixLayerName_spec (ext : Externals) (hzero : ext.from_str_int "0" = 0)
    (hN : ∀ s : String, ext.from_str_int ("N" ++ s) ≤ 0) (s : String) :
    (0 < ext.from_str_int s → NeuralController.FixLayerName ext s = "N" ++ s) ∧
      (ext.from_str_int s ≤ 0 → NeuralController.FixLayerName ext s = s) ∧
      NeuralController.FixLayerName ext "0" = "0" ∧
      NeuralController.FixLayerName ext (NeuralController.FixLayerName ext s)
        = NeuralController.FixLayerName ext s ∧
      (NeuralController.FixLayerName ext s = "0" → s = "0") := by
  have hpos : 0 < ext.from_str_int s → NeuralController.FixLayerName ext s = "N" ++ s := by
    intro h
    simp [NeuralController.FixLayerName, h]
  have hnon : ext.from_str_int s ≤ 0 → NeuralController.FixLayerName ext s = s := by
    intro h
    simp [NeuralController.FixLayerName, not_lt.mpr h]
  refine ⟨hpos, hnon, ?_, ?_, ?_⟩
  · simp [NeuralController.FixLayerName, hzero]
  · by_cases h : 0 < ext.from_str_int s
    · rw [hpos h]
      simp [NeuralController.FixLayerName, not_lt.mpr (hN s)]
    · rw [hnon (not_lt.mp h), hnon (not_lt.mp h)]
  · intro h0
    by_cases h : 0 < ext.from_str_int s
    · rw [hpos h] at h0
      exact absurd h0 (N_append_ne_zero s)
    · rw [hnon (not_lt.mp h)] at h0
      exact h0

theorem exampleFromStr_N (s : String) : exampleFromStr ("N" ++ s) ≤ 0 := by
  have hd : ("N" ++ s).data = 'N' :: s.data := by simp [String.data_append]
  unfold exampleFromStr
  rw [hd]
  simp [List.all_cons, Char.isDigit]

/-- C30 for the example parser on the layer name "1". -/
theorem FixLayerName_spec_witness :
    exampleExternals.from_str_int "0" = 0 ∧
      (∀ s : String, exampleExternals.from_str_int ("N" ++ s) ≤ 0) ∧
      (0 : Int) < exampleExternals.from_str_int "1" ∧
      NeuralController.FixLayerName exampleExternals "1" = "N" ++ "1" ∧
      NeuralController.FixLayerName exampleExternals
          (NeuralController.FixLayerName exampleExternals "1")
        = NeuralController.FixLayerName exampleExternals "1" :=
  ⟨by decide, exampleFromStr_N, by decide,
   (FixLayerName_spec exampleExternals (by decide) exampleFromStr_N "1").1 (by decide),
   (FixLayerName_spec exampleExternals (by decide) exampleFromStr_N "1").2.2.2.1⟩

end scone
